import Mathlib

/-!
Verification development for the `tube` video-sharing server (package `app`,
file `app/app.go`).  The ingestion pipeline (upload / import handlers), the
filename-collision resolution, and the on-the-fly transcoding path are
shallowly embedded as pure Lean functions producing a trace of filesystem /
process events.  Every fallible external operation (file creation, `os.Stat`,
`os.Rename`, `ffmpeg` invocations via `utils.RunCmd`, HTTP downloads) takes
its outcome from an explicit environment record, so a run of a handler is a
deterministic function of its environment.
-/

set_option maxRecDepth 20000
set_option maxHeartbeats 1000000

namespace Tube

/-! ### Go string / path primitives (unix rules, `path/filepath`) -/

/-- Boolean list-prefix test (used for directory-containment checks). -/
def listPre : List Char → List Char → Bool
  | [], _ => true
  | _ :: _, [] => false
  | a :: xs, b :: ys => a == b && listPre xs ys

/-- Boolean list-suffix test. -/
def listSuf (a b : List Char) : Bool := listPre a.reverse b.reverse

/-- Character class used by Go `filepath.Ext`: scan stops at a path separator
or at a dot. -/
def extStop (c : Char) : Bool := !(c == '/') && !(c == '.')

/-- Go `filepath.Ext`: the suffix beginning at the final dot in the final
element of the path; empty if there is no dot before the last separator
(scan the reversed path up to the first dot, stopping at a separator). -/
def goExt (s : String) : String :=
  if (s.data.reverse.dropWhile extStop).head? = some '.' then
    ⟨'.' :: (s.data.reverse.takeWhile extStop).reverse⟩
  else ""

/-- Go `filepath.Base` (unix): strip trailing slashes, keep the last element;
empty path gives ".", all-separator path gives "/". -/
def goBase (p : String) : String :=
  if p = "" then "."
  else
    let r := p.data.reverse.dropWhile (· == '/')
    let aft := r.takeWhile (fun c => !(c == '/'))
    if r.isEmpty then "/" else ⟨aft.reverse⟩

/-- Split a character list at every slash (the list-level equivalent of
`strings.Split(path, "/")`). -/
def splitSlash : List Char → List (List Char)
  | [] => [[]]
  | c :: rest =>
    if c = '/' then [] :: splitSlash rest
    else
      match splitSlash rest with
      | [] => [[c]]
      | seg :: segs => (c :: seg) :: segs

/-- Join segments with slashes (the list-level equivalent of
`strings.Join(segs, "/")`). -/
def joinSlash : List (List Char) → List Char
  | [] => []
  | [seg] => seg
  | seg :: rest => seg ++ '/' :: joinSlash rest

/-- Segment processing of Go `path.Clean` / `filepath.Clean` (unix): drop
empty and "." segments, resolve ".." against the stack. -/
def cleanSegs (rooted : Bool) : List (List Char) → List (List Char) → List (List Char)
  | [], acc => acc.reverse
  | s :: rest, acc =>
    if s = [] || s = ['.'] then cleanSegs rooted rest acc
    else if s = ['.', '.'] then
      match acc with
      | [] => if rooted then cleanSegs rooted rest [] else cleanSegs rooted rest [['.', '.']]
      | a :: tl => if a = ['.', '.'] then cleanSegs rooted rest (['.', '.'] :: a :: tl)
                   else cleanSegs rooted rest tl
    else cleanSegs rooted rest (s :: acc)

/-- Go `filepath.Clean` (unix). -/
def goClean (p : String) : String :=
  if p = "" then "."
  else
    let rooted := listPre ['/'] p.data
    let out := joinSlash (cleanSegs rooted (splitSlash p.data) [])
    if rooted then ⟨'/' :: out⟩
    else if out = [] then "." else ⟨out⟩

/-- Go `filepath.Join` on two elements: join the non-empty elements with "/"
and `Clean` the result (`app.go` uses it via `filepath.Join`/`path.Join`). -/
def goJoin (a b : String) : String :=
  if a = "" then (if b = "" then "" else goClean b) else goClean (a ++ "/" ++ b)

/-- Go `strings.TrimSuffix`. -/
def goTrimSuffix (s sfx : String) : String :=
  if listSuf sfx.data s.data then ⟨s.data.take (s.data.length - sfx.data.length)⟩ else s

/-- `pathWithoutExtension` from `app.go`: full path minus
`filepath.Ext(path)` (keeps leading directories). -/
def pathWithoutExtension (p : String) : String :=
  ⟨p.data.take (p.data.length - (goExt p).data.length)⟩

/-- `basenameWithoutExtension` from `app.go`: `filepath.Base` minus its
extension. -/
def basenameWithoutExtension (p : String) : String :=
  let b := goBase p
  ⟨b.data.take (b.data.length - (goExt b).data.length)⟩

/-- Insertion step for `sort.Strings`. -/
def insertSorted (s : String) : List String → List String
  | [] => [s]
  | t :: rest => if s ≤ t then s :: t :: rest else t :: insertSorted s rest

/-- Go `sort.Strings` (insertion sort; only order of the result matters). -/
def sortStrings : List String → List String
  | [] => []
  | s :: rest => insertSorted s (sortStrings rest)

/-- Containment test: `p` lies strictly under directory `dir`
(string-prefixed by `dir ++ "/"`). -/
def underDir (dir p : String) : Bool := listPre (dir ++ "/").data p.data

/-! ### Data model (`Config`, `media.Library` as used by `app.go`) -/

/-- One configured collection (`media.Path`): root directory, URL namespace,
per-collection preserve-upload-filename flag. -/
structure LibPath where
  path : String
  pfx : String
  preserveUploadFilename : Bool
  deriving Repr, DecidableEq

/-- Server section of `Config` (the fields `app.go` reads). -/
structure ServerCfg where
  uploadPath : String
  maxUploadSize : Int
  preserveUploadFilename : Bool
  deriving Repr, DecidableEq

/-- Transcoder section of `Config`: timeout plus the size → suffix downscale
profiles (a Go map; embedded as an association list in iteration order). -/
structure TranscoderCfg where
  timeout : Int
  sizes : List (String × String)
  deriving Repr, DecidableEq

/-- Thumbnailer section of `Config`. -/
structure ThumbnailerCfg where
  timeout : Int
  positionFromStart : Int
  deriving Repr, DecidableEq

/-- The parts of `Config` consumed by the embedded handlers. -/
structure Config where
  server : ServerCfg
  transcoder : TranscoderCfg
  thumbnailer : ThumbnailerCfg
  deriving Repr, DecidableEq

/-- `media.Library.Paths`: collection key → collection config (`app.go` keys
this map by the collection's directory path). -/
structure Library where
  paths : List (String × LibPath)
  deriving Repr, DecidableEq

/-- Map lookup in `Library.Paths`. -/
def lookupPath (lib : Library) (key : String) : Option LibPath :=
  (lib.paths.find? (fun kv => kv.1 == key)).map (fun kv => kv.2)

/-- `preserveUploadFilenameIsEnabled` from `app.go` (line 477): the global
server flag or the per-collection flag of the target directory.  (Go reads
the map through a pointer; a missing key would be a nil dereference, embedded
here as the flag of a default entry — the function is only meaningful for
registered targets.) -/
def preserveUploadFilenameIsEnabled (cfg : Config) (lib : Library) (targetLibraryDir : String) : Bool :=
  cfg.server.preserveUploadFilename ||
    ((lookupPath lib targetLibraryDir).getD ⟨"", "", false⟩).preserveUploadFilename

/-! ### Event traces -/

/-- One observable filesystem / process / response effect of a handler run.
Events record operations as they are attempted, in program order; whether an
operation succeeded is determined by the environment record of the run. -/
inductive Ev
  | tempFile (dir name : String)
  | osCreate (path : String)
  | runCmd (timeout : Int) (exe : String) (args : List String)
  | osRename (src dst : String)
  | osRemove (path : String)
  | download (url dst : String)
  | httpHead (url : String)
  | setHeader (key value : String)
  | serveFile (path : String)
  | startProc (exe : String) (args : List String)
  | spawnStderrReader
  | copyStderrToStdout
  | writeChunk (n : Nat)
  | flushResp
  | killProc
  | storeMigrate (pfxArg id : String)
  | storeIncViews (id : String)
  deriving Repr, DecidableEq

/-- Final outcome of a handler run: 200 body text, `http.Error`, a Go panic,
or fuel exhaustion of the (source-unbounded) collision loop. -/
inductive HRes
  | success (msg : String)
  | httpErr (status : Nat) (msg : String)
  | panicked (msg : String)
  | outOfFuel
  deriving Repr, DecidableEq

/-- Function exit: flush the registered deferred events (stored in LIFO run
order) after the trace. -/
def finish (tr defs : List Ev) (r : HRes) : List Ev × HRes := (tr ++ defs, r)

/-- Outcome of one `os.Stat` call. -/
inductive StatRes
  | statOk
  | notExist
  | statErr
  deriving Repr, DecidableEq

/-- Filesystem oracle for the existence checks of name resolution:
`securejoin.SecureJoin` failure (external library, modeled as the plain join
`location ++ "/" ++ filename` with an injectable error) and `os.Stat`
outcomes. -/
structure FsOracle where
  sjFail : String → String → Bool
  stat : String → StatRes

/-- `fileExistsAtLocation` from `app.go` (line 487): SecureJoin then
`os.Stat`; `(true, nil)` if it exists, `(false, nil)` if not, error
otherwise. -/
def fileExistsAtLocation (o : FsOracle) (filename location : String) : Except Unit Bool :=
  match o.sjFail location filename with
  | true => .error ()
  | false =>
    match o.stat (location ++ "/" ++ filename) with
    | .statOk => .ok true
    | .notExist => .ok false
    | .statErr => .error ()

/-- `fileExistsAtAnyLocation` from `app.go` (line 504): first error aborts,
first hit returns true, otherwise false. -/
def fileExistsAtAnyLocation (o : FsOracle) (filename : String) : List String → Except Unit Bool
  | [] => .ok false
  | loc :: rest =>
    match fileExistsAtLocation o filename loc with
    | .error e => .error e
    | .ok true => .ok true
    | .ok false => fileExistsAtAnyLocation o filename rest

/-- Initial candidate of `newVideoFileName` (line 522): the stem of the
candidate filename when one was supplied, else a fresh `shortuuid`. -/
def uploadFirstCandidate (candidateFilename : String) (uuid : Nat → String) : String :=
  if candidateFilename = "" then uuid 0 ++ ".mp4"
  else basenameWithoutExtension candidateFilename ++ ".mp4"

/-- Collision loop of `newVideoFileName` (lines 527–542), with explicit fuel
since the Go loop is unbounded.  Faithful to the Go control flow: the loop
init `exists, err := fileExistsAtAnyLocation(...)` declares loop-local
variables that shadow the named return `err`; the loop runs only while
`exists == true && err == nil`, so both the `.ok false` exit and the
`.error` exit fall through to the post-loop `if err != nil` check — which
reads the never-assigned named return (still nil) — and return the current
candidate with a nil error.  The in-loop error branch (lines 530–534) cannot
execute because the loop condition requires `err == nil`. -/
def newVideoFileNameLoop (o : FsOracle) (candidateFilename : String)
    (locations : List String) (uuid : Nat → String) :
    Nat → Nat → String → Option (Except Unit String)
  | 0, _, _ => none
  | Nat.succ fuel, k, newFileName =>
    match fileExistsAtAnyLocation o newFileName locations with
    | .ok true =>
      newVideoFileNameLoop o candidateFilename locations uuid fuel (k + 1)
        (basenameWithoutExtension candidateFilename ++ "_" ++ uuid k ++ ".mp4")
    | .ok false => some (.ok newFileName)
    | .error _ => some (.ok newFileName)

/-- `newVideoFileName` from `app.go` (line 521). -/
def newVideoFileName (o : FsOracle) (fuel : Nat) (candidateFilename : String)
    (locations : List String) (uuid : Nat → String) : Option (Except Unit String) :=
  newVideoFileNameLoop o candidateFilename locations uuid fuel
    (if candidateFilename = "" then 1 else 0)
    (uploadFirstCandidate candidateFilename uuid)

/-! ### ffmpeg invocations (`utils.RunCmd` argument lists from `app.go`) -/

/-- `createVideo` (line 415): master transcode invocation; last argument is
the output path. -/
def createVideo (timeout : Int) (videoFile transcodedVideoPath videoTitle videoDescription : String) : Ev :=
  .runCmd timeout "ffmpeg"
    ["-y", "-vcodec", "h264", "-acodec", "aac", "-strict", "-2", "-loglevel", "quiet",
     "-metadata", "title=" ++ videoTitle, "-metadata", "comment=" ++ videoDescription,
     "-i", videoFile, transcodedVideoPath]

/-- `createThumbnail` (line 441): one-frame extraction; last argument is the
output path. -/
def createThumbnail (timeout secondsFromStart : Int) (videoFile thumbnailPath : String) : Ev :=
  .runCmd timeout "ffmpeg"
    ["-y", "-vf", "thumbnail", "-t", toString secondsFromStart, "-vframes", "1",
     "-strict", "-2", "-loglevel", "quiet", "-i", videoFile, thumbnailPath]

/-- `createScaledVideo` (line 389): downscale invocation of the upload
pipeline; last argument is the output path. -/
def createScaledVideo (timeout : Int) (videoFile scaledVideoFile videoTitle videoDescription size : String) : Ev :=
  .runCmd timeout "ffmpeg"
    ["-y", "-s", size, "-c:v", "libx264", "-c:a", "aac", "-crf", "18",
     "-strict", "-2", "-loglevel", "verbose",
     "-metadata", "title=" ++ videoTitle, "-metadata", "comment=" ++ videoDescription,
     "-i", videoFile, scaledVideoFile]

/-! ### Upload handler (`uploadHandler`, POST branch, lines 240–383) -/

/-- Environment of one upload run: form contents plus the outcome of every
fallible operation in program order.  `uploadSize` is the byte size of the
multipart payload; the handler never reads it (`ParseMultipartForm`'s
argument is an in-memory buffer size, not a limit, and its error is
discarded at line 242). -/
structure UploadEnv where
  videoTitle : String
  videoDescription : String
  targetField : String
  formFileOk : Bool
  uploadFilename : String
  uploadSize : Int
  fs : FsOracle
  uuid : Nat → String
  stagedToken : String
  stagedCreateOk : Bool
  copyOk : Bool
  createOk : Bool
  transcodeOk : Bool
  thumbOk : Bool
  renameThumbOk : Bool
  renameVideoOk : Bool
  scaleOk : Nat → Bool
  scaleRenameOk : Nat → Bool

/-- Derivative loop of the upload pipeline (lines 349–381): for each
configured size, scale the staged source into scratch and rename the result
into the collection; the first failure aborts with an HTTP 500. -/
def uploadScaleLoop (cfg : Config) (e : UploadEnv) (stagedPath tvp nvp : String) :
    List (String × String) → Nat → List Ev → List Ev → List Ev × HRes
  | [], _, tr, defs => finish tr defs (.success "Video successfully uploaded!")
  | (size, sfx) :: rest, k, tr, defs =>
    let scaledFileName := goTrimSuffix tvp (goExt tvp) ++ "#" ++ sfx ++ ".mp4"
    let tr := tr ++ [createScaledVideo cfg.transcoder.timeout stagedPath scaledFileName
      e.videoTitle e.videoDescription size]
    match e.scaleOk k with
    | false => finish tr defs (.httpErr 500 "error transcoding video")
    | true =>
      let targetFilename := goTrimSuffix nvp (goExt nvp) ++ "#" ++ sfx ++ ".mp4"
      let tr := tr ++ [Ev.osRename scaledFileName targetFilename]
      match e.scaleRenameOk k with
      | false => finish tr defs (.httpErr 500 "error moving scaled video")
      | true => uploadScaleLoop cfg e stagedPath tvp nvp rest (k + 1) tr defs

/-- POST branch of `uploadHandler` (lines 240–383), in source order:
validate target, extract the form file, resolve a collision-free basename,
stage the upload into the scratch directory (deferred removal), create the
transcode output file in scratch via SecureJoin (deferred removal),
transcode, thumbnail, rename thumbnail then master into the collection,
then run the derivative loop. -/
def uploadHandlerPost (cfg : Config) (lib : Library) (fuel : Nat) (e : UploadEnv) : List Ev × HRes :=
  match lookupPath lib e.targetField with
  | none => ([], .httpErr 500 ("uploading to invalid library path: " ++ e.targetField))
  | some _ =>
  let targetLibraryDir := e.targetField
  match e.formFileOk with
  | false => ([], .httpErr 500 "error processing form")
  | true =>
  match newVideoFileName e.fs fuel e.uploadFilename [targetLibraryDir, cfg.server.uploadPath] e.uuid with
  | none => ([], .outOfFuel)
  | some (.error _) => ([], .httpErr 500 "error resolving video file name")
  | some (.ok newVideoBasename) =>
  let newVideoPath := goJoin targetLibraryDir newVideoBasename
  let stagedName := "tube-upload-" ++ e.stagedToken ++ goExt e.uploadFilename
  let stagedPath := cfg.server.uploadPath ++ "/" ++ stagedName
  match e.stagedCreateOk with
  | false => ([], .httpErr 500 "error creating temporary file for uploading")
  | true =>
  let tr := [Ev.tempFile cfg.server.uploadPath stagedName]
  match e.copyOk with
  | false => (tr, .httpErr 500 "error writing file")
  | true =>
  let defs := [Ev.osRemove stagedPath]
  match e.fs.sjFail cfg.server.uploadPath newVideoBasename with
  | true => finish tr defs (.httpErr 500 "error creating temporary filename for transcoding")
  | false =>
  let transcodedVideoPath := cfg.server.uploadPath ++ "/" ++ newVideoBasename
  let tr := tr ++ [Ev.osCreate transcodedVideoPath]
  match e.createOk with
  | false => finish tr defs (.httpErr 500 "error creating temporary file for transcoding")
  | true =>
  let defs := Ev.osRemove transcodedVideoPath :: defs
  let transcodedThumbnailPath := pathWithoutExtension transcodedVideoPath ++ ".jpg"
  let newThumbnailPath := pathWithoutExtension newVideoPath ++ ".jpg"
  let tr := tr ++ [createVideo cfg.transcoder.timeout stagedPath transcodedVideoPath
    e.videoTitle e.videoDescription]
  match e.transcodeOk with
  | false => finish tr defs (.httpErr 500 "error transcoding video")
  | true =>
  let tr := tr ++ [createThumbnail cfg.thumbnailer.timeout cfg.thumbnailer.positionFromStart
    stagedPath transcodedThumbnailPath]
  match e.thumbOk with
  | false => finish tr defs (.httpErr 500 "error generating thumbnail")
  | true =>
  let tr := tr ++ [Ev.osRename transcodedThumbnailPath newThumbnailPath]
  match e.renameThumbOk with
  | false => finish tr defs (.httpErr 500 "error renaming generated thumbnail")
  | true =>
  let tr := tr ++ [Ev.osRename transcodedVideoPath newVideoPath]
  match e.renameVideoOk with
  | false => finish tr defs (.httpErr 500 "error renaming transcoded video")
  | true =>
  uploadScaleLoop cfg e stagedPath transcodedVideoPath newVideoPath cfg.transcoder.sizes 0 tr defs

/-! ### Import handler (`importHandler`, POST branch, lines 629–809) -/

/-- Normalized output of the external video-info resolver. -/
structure VideoInfo where
  videoURL : String
  title : String
  description : String
  thumbnailURL : String
  deriving Repr, DecidableEq

/-- Environment of one import run, outcome fields in program order.
`contentLength` is the value `utils.SafeParseInt64(header, -1)` produces
(−1 encodes a missing / unparsable Content-Length). -/
structure ImportEnv where
  url : String
  importerOk : Bool
  videoInfoOk : Bool
  info : VideoInfo
  ufToken : String
  ufCreateOk : Bool
  headOk : Bool
  contentLength : Int
  dlVideoOk : Bool
  tfToken : String
  tfCreateOk : Bool
  vfToken : String
  dlThumbOk : Bool
  transcodeOk : Bool
  renameThumbOk : Bool
  renameVideoOk : Bool
  scaleOk : Nat → Bool

/-- Derivative loop of the import pipeline (lines 776–807): for each
configured size, re-encode reading the published master `vf` and writing
`sf` (beside `vf`, inside the collection) directly; there is no rename
step.  The first failure aborts with an HTTP 500. -/
def importScaleLoop (cfg : Config) (e : ImportEnv) (vf : String) :
    List (String × String) → Nat → List Ev → List Ev → List Ev × HRes
  | [], _, tr, defs => finish tr defs (.success "Video successfully imported!")
  | (size, sfx) :: rest, k, tr, defs =>
    let sf := goTrimSuffix vf (goExt vf) ++ "#" ++ sfx ++ ".mp4"
    let tr := tr ++ [Ev.runCmd cfg.transcoder.timeout "ffmpeg"
      ["-y", "-i", vf, "-s", size, "-c:v", "libx264", "-c:a", "aac", "-crf", "18",
       "-strict", "-2", "-loglevel", "quiet",
       "-metadata", "title=" ++ e.info.title, "-metadata", "comment=" ++ e.info.description,
       sf]]
    match e.scaleOk k with
    | false => finish tr defs (.httpErr 500 "error transcoding video")
    | true => importScaleLoop cfg e vf rest (k + 1) tr defs

/-- POST branch of `importHandler` (lines 629–809), in source order: require
a url, select the first (sorted) collection — indexing `keys[0]` panics when
no collection is configured —, resolve video info, create the download temp
file (deferred removal), HEAD for the size, reject when the declared length
exceeds `max_upload_size`, download, create the transcode temp file (no
deferred removal), download the thumbnail beside it, transcode, rename
thumbnail then master into the collection, then run the derivative loop. -/
def importHandlerPost (cfg : Config) (lib : Library) (e : ImportEnv) : List Ev × HRes :=
  match e.url == "" with
  | true => ([], .httpErr 400 "error, no url supplied")
  | false =>
  match sortStrings (lib.paths.map Prod.fst) with
  | [] => ([], .panicked "runtime error: index out of range [0] with length 0")
  | collection :: _ =>
  match e.importerOk with
  | false => ([], .httpErr 500 "error creating video importer")
  | true =>
  match e.videoInfoOk with
  | false => ([], .httpErr 500 "error retrieving video info")
  | true =>
  let ufName := "tube-import-" ++ e.ufToken ++ ".mp4"
  let ufPath := cfg.server.uploadPath ++ "/" ++ ufName
  match e.ufCreateOk with
  | false => ([], .httpErr 500 "error creating temporary file for importing")
  | true =>
  let tr := [Ev.tempFile cfg.server.uploadPath ufName]
  let defs := [Ev.osRemove ufPath]
  let tr := tr ++ [Ev.httpHead e.info.videoURL]
  match e.headOk with
  | false => finish tr defs (.httpErr 500 "error getting size of video")
  | true =>
  match e.contentLength == -1 with
  | true => finish tr defs (.httpErr 500 "error calculating size of video")
  | false =>
  if cfg.server.maxUploadSize < e.contentLength then
    finish tr defs (.httpErr 500 "imported video would exceed maximum upload size")
  else
  let tr := tr ++ [Ev.download e.info.videoURL ufPath]
  match e.dlVideoOk with
  | false => finish tr defs (.httpErr 500 "error downloading video")
  | true =>
  let tfName := "tube-transcode-" ++ e.tfToken ++ ".mp4"
  let tfPath := cfg.server.uploadPath ++ "/" ++ tfName
  match e.tfCreateOk with
  | false => finish tr defs (.httpErr 500 "error creating temporary file for transcoding")
  | true =>
  let tr := tr ++ [Ev.tempFile cfg.server.uploadPath tfName]
  match lookupPath lib collection with
  | none => finish tr defs (.panicked "runtime error: invalid memory address or nil pointer dereference")
  | some p =>
  let vf := goJoin p.path (e.vfToken ++ ".mp4")
  let thumbFn1 := goTrimSuffix tfPath (goExt tfPath) ++ ".jpg"
  let thumbFn2 := goTrimSuffix vf (goExt vf) ++ ".jpg"
  let tr := tr ++ [Ev.download e.info.thumbnailURL thumbFn1]
  match e.dlThumbOk with
  | false => finish tr defs (.httpErr 500 "error downloading thumbnail")
  | true =>
  let tr := tr ++ [Ev.runCmd cfg.transcoder.timeout "ffmpeg"
    ["-y", "-i", ufPath, "-vcodec", "h264", "-acodec", "aac", "-strict", "-2",
     "-loglevel", "quiet",
     "-metadata", "title=" ++ e.info.title, "-metadata", "comment=" ++ e.info.description,
     tfPath]]
  match e.transcodeOk with
  | false => finish tr defs (.httpErr 500 "error transcoding video")
  | true =>
  let tr := tr ++ [Ev.osRename thumbFn1 thumbFn2]
  match e.renameThumbOk with
  | false => finish tr defs (.httpErr 500 "error renaming generated thumbnail")
  | true =>
  let tr := tr ++ [Ev.osRename tfPath vf]
  match e.renameVideoOk with
  | false => finish tr defs (.httpErr 500 "error renaming transcoded video")
  | true =>
  importScaleLoop cfg e vf cfg.transcoder.sizes 0 tr defs

/-! ### Playback handler (`videoHandler`, lines 901–1028) -/

/-- A catalogued video as read by `videoHandler` (`media.Video` fields it
uses). -/
structure Video where
  id : String
  title : String
  path : String
  deriving Repr, DecidableEq

/-- One iteration of the response-streaming loop: bytes read from the
encoder's stdout, whether the read errored (other than EOF), and whether the
response write succeeded (a client disconnect surfaces as a failed write). -/
structure ReadStep where
  n : Nat
  readErr : Bool
  writeOk : Bool
  deriving Repr, DecidableEq

/-- Environment of one playback request. -/
structure WatchEnv where
  idVar : String
  pfxVar : Option String
  videos : List (String × Video)
  quality : String
  fileExists : String → Bool
  stderrPipeOk : Bool
  stdoutPipeOk : Bool
  startOk : Bool
  reads : List ReadStep

/-- Video id resolved from the route variables (lines 903–909): the `id`
variable, prefixed via `path.Join` when the prefixed route matched. -/
def resolveId (e : WatchEnv) : String :=
  match e.pfxVar with
  | some p => goJoin p e.idVar
  | none => e.idVar

/-- Catalog lookup `a.Library.Videos[id]` (line 916). -/
def lookupVideo (e : WatchEnv) : Option Video :=
  (e.videos.find? (fun kv => kv.1 == resolveId e)).map (fun kv => kv.2)

/-- Streaming-mode ffmpeg argument list of the on-the-fly path (lines
964–973). -/
def otfArgs (videoPath : String) : List String :=
  ["-y", "-s", "320x200", "-vcodec", "h264", "-acodec", "aac", "-strict", "-2",
   "-loglevel", "debug", "-i", videoPath, "-f", "mp4",
   "-movflags", "frag_keyframe+empty_moov", "-"]

/-- Response-streaming loop (lines 1007–1024): read a chunk (zero bytes
breaks the loop), abort on a read error, write it to the response (abort on
a failed write), flush.  Every exit flushes the deferred `cmd.Process.Kill`.
-/
def streamLoop : List ReadStep → List Ev → List Ev → List Ev × HRes
  | [], tr, defs => finish tr defs (.success "")
  | s :: rest, tr, defs =>
    match s.n with
    | 0 => finish tr defs (.success "")
    | Nat.succ _ =>
      match s.readErr with
      | true => finish tr defs (.httpErr 500 "error reading from ffmpeg stdout")
      | false =>
        let tr := tr ++ [Ev.writeChunk s.n]
        match s.writeOk with
        | false => finish tr defs (.httpErr 500 "error writing to response")
        | true => streamLoop rest (tr ++ [Ev.flushResp]) defs

/-- `videoHandler` (lines 901–1028): resolve the video, pick the requested
quality variant — falling back to on-the-fly encoding when the derivative
file `<stem>#<quality>.mp4` is absent —, record the view, set the response
headers, then either serve the file or spawn the streaming encoder whose
kill is deferred once it started.  Each I/O call is one trace event; the
synchronous `io.Copy` of the stderr pipe (line 979) is the
`copyStderrToStdout` event. -/
def videoHandler (e : WatchEnv) : List Ev × HRes :=
  let id := resolveId e
  match lookupVideo e with
  | none => ([], .success "")
  | some m =>
  let qr : String × Bool := match e.quality with
    | "720p" | "480p" | "360p" | "240p" =>
      let vp := goTrimSuffix m.path (goExt m.path) ++ "#" ++ e.quality ++ ".mp4"
      match e.fileExists vp with
      | false => (vp, true)
      | true => (vp, false)
    | _ => (m.path, false)
  let videoPath := qr.1
  let otf := qr.2
  let tr := [Ev.storeMigrate ((e.pfxVar).getD "") id, Ev.storeIncViews id]
  let tr := tr ++ [Ev.setHeader "Content-Disposition"
    ("attachment; filename=\"" ++ m.title ++ ".mp4\"")]
  let tr := tr ++ [Ev.setHeader "Content-Type" "video/mp4"]
  match otf with
  | false => (tr ++ [Ev.serveFile videoPath], .success "")
  | true =>
    match e.stderrPipeOk with
    | false => (tr, .httpErr 500 "error creating stderr pipe")
    | true =>
    let tr := tr ++ [Ev.copyStderrToStdout]
    match e.stdoutPipeOk with
    | false => (tr, .httpErr 500 "error creating stdout pipe")
    | true =>
    let tr := tr ++ [Ev.startProc "ffmpeg" (otfArgs videoPath)]
    match e.startOk with
    | false => (tr, .httpErr 500 "error starting ffmpeg")
    | true =>
    let defs := [Ev.killProc]
    let tr := tr ++ [Ev.spawnStderrReader]
    let tr := tr ++ [Ev.setHeader "Content-Type" "video/mp4"]
    streamLoop e.reads tr defs

/-! ### Derived trace shapes -/

/-- Events appended by a fully successful upload derivative loop, in order:
one scale invocation into scratch and one rename into the collection per
configured profile. -/
def uploadScaleEvs (cfg : Config) (e : UploadEnv) (stagedPath tvp nvp : String) :
    List (String × String) → List Ev
  | [] => []
  | (size, sfx) :: rest =>
    createScaledVideo cfg.transcoder.timeout stagedPath
        (goTrimSuffix tvp (goExt tvp) ++ "#" ++ sfx ++ ".mp4") e.videoTitle e.videoDescription size
      :: Ev.osRename (goTrimSuffix tvp (goExt tvp) ++ "#" ++ sfx ++ ".mp4")
          (goTrimSuffix nvp (goExt nvp) ++ "#" ++ sfx ++ ".mp4")
      :: uploadScaleEvs cfg e stagedPath tvp nvp rest

/-- Trace of a fully successful upload run that resolved basename `nm`. -/
def uploadSuccessTrace (cfg : Config) (e : UploadEnv) (nm : String) : List Ev :=
  let up := cfg.server.uploadPath
  let stagedName := "tube-upload-" ++ e.stagedToken ++ goExt e.uploadFilename
  let stagedPath := up ++ "/" ++ stagedName
  let tvp := up ++ "/" ++ nm
  let nvp := goJoin e.targetField nm
  [Ev.tempFile up stagedName, Ev.osCreate tvp,
   createVideo cfg.transcoder.timeout stagedPath tvp e.videoTitle e.videoDescription,
   createThumbnail cfg.thumbnailer.timeout cfg.thumbnailer.positionFromStart stagedPath
     (pathWithoutExtension tvp ++ ".jpg"),
   Ev.osRename (pathWithoutExtension tvp ++ ".jpg") (pathWithoutExtension nvp ++ ".jpg"),
   Ev.osRename tvp nvp]
  ++ uploadScaleEvs cfg e stagedPath tvp nvp cfg.transcoder.sizes
  ++ [Ev.osRemove tvp, Ev.osRemove stagedPath]

/-- Events appended by a fully successful import derivative loop: one encode
per profile, reading the published master `vf` and writing beside it. -/
def importScaleEvs (cfg : Config) (e : ImportEnv) (vf : String) :
    List (String × String) → List Ev
  | [] => []
  | (size, sfx) :: rest =>
    Ev.runCmd cfg.transcoder.timeout "ffmpeg"
      ["-y", "-i", vf, "-s", size, "-c:v", "libx264", "-c:a", "aac", "-crf", "18",
       "-strict", "-2", "-loglevel", "quiet",
       "-metadata", "title=" ++ e.info.title, "-metadata", "comment=" ++ e.info.description,
       goTrimSuffix vf (goExt vf) ++ "#" ++ sfx ++ ".mp4"]
      :: importScaleEvs cfg e vf rest

/-- Trace of a fully successful import run into the collection rooted at
`colPath`. -/
def importSuccessTrace (cfg : Config) (e : ImportEnv) (colPath : String) : List Ev :=
  let up := cfg.server.uploadPath
  let ufName := "tube-import-" ++ e.ufToken ++ ".mp4"
  let ufPath := up ++ "/" ++ ufName
  let tfName := "tube-transcode-" ++ e.tfToken ++ ".mp4"
  let tfPath := up ++ "/" ++ tfName
  let vf := goJoin colPath (e.vfToken ++ ".mp4")
  [Ev.tempFile up ufName,
   Ev.httpHead e.info.videoURL,
   Ev.download e.info.videoURL ufPath,
   Ev.tempFile up tfName,
   Ev.download e.info.thumbnailURL (goTrimSuffix tfPath (goExt tfPath) ++ ".jpg"),
   Ev.runCmd cfg.transcoder.timeout "ffmpeg"
     ["-y", "-i", ufPath, "-vcodec", "h264", "-acodec", "aac", "-strict", "-2",
      "-loglevel", "quiet",
      "-metadata", "title=" ++ e.info.title, "-metadata", "comment=" ++ e.info.description,
      tfPath],
   Ev.osRename (goTrimSuffix tfPath (goExt tfPath) ++ ".jpg") (goTrimSuffix vf (goExt vf) ++ ".jpg"),
   Ev.osRename tfPath vf]
  ++ importScaleEvs cfg e vf cfg.transcoder.sizes
  ++ [Ev.osRemove ufPath]

/-- Write destination of an event, when it writes file contents: temporary
file creation, `os.Create`, an ffmpeg invocation (output path is its last
argument in every call site of `app.go`), a download, or a rename target. -/
def evWriteDst : Ev → Option String
  | .tempFile d n => some (d ++ "/" ++ n)
  | .osCreate p => some p
  | .runCmd _ _ args => some (args.getLastD "")
  | .download _ dst => some dst
  | .osRename _ dst => some dst
  | _ => none

/-- Whether an event writes file contents somewhere under `dir`. -/
def writesUnder (dir : String) (ev : Ev) : Bool :=
  match evWriteDst ev with
  | some p => underDir dir p
  | none => false

/-- Whether an event is a rename. -/
def isRenameEv : Ev → Bool
  | .osRename _ _ => true
  | _ => false

/-! ### Concrete instances used by witnesses and counterexamples -/

/-- Sample configuration: no downscale profiles. -/
def cfgW : Config := ⟨⟨"/uploads", 104857600, false⟩, ⟨300, []⟩, ⟨60, 3⟩⟩

/-- Sample configuration: one downscale profile `hd720 → 720p`. -/
def cfgW1 : Config := ⟨⟨"/uploads", 104857600, false⟩, ⟨300, [("hd720", "720p")]⟩, ⟨60, 3⟩⟩

/-- Sample library: a single collection at `/videos` with filename
preservation disabled. -/
def libW : Library := ⟨[("/videos", ⟨"/videos", "", false⟩)]⟩

/-- Oracle for runs without name collisions or stat errors. -/
def oracleW : FsOracle := ⟨fun _ _ => false, fun _ => .notExist⟩

/-- Oracle whose every `os.Stat` fails with a non-NotExist error. -/
def oracleErrW : FsOracle := ⟨fun _ _ => false, fun _ => .statErr⟩

/-- Fixed shortuuid stream. -/
def uuidW : Nat → String := fun _ => "K7RsTq"

/-- All-steps-succeed upload environment; the multipart payload is one byte
over the configured 100 MiB limit. -/
def uploadEnvW : UploadEnv :=
  ⟨"Test", "Demo", "/videos", true, "movie.avi", 104857601, oracleW, uuidW, "123456",
   true, true, true, true, true, true, true, fun _ => true, fun _ => true⟩

/-- All-steps-succeed import environment with declared size 500 bytes. -/
def importEnvW : ImportEnv :=
  ⟨"https://example.com/watch", true, true,
   ⟨"https://cdn.example.com/v.mp4", "Test", "Demo", "https://cdn.example.com/t.jpg"⟩,
   "111111", true, true, 500, true, "222222", true, "K7RsTq", true, true, true, true,
   fun _ => true⟩

/-- Upload environment reaching the derivative loop with every derivative
rename failing (the encodes succeed). -/
def uploadEnvWR : UploadEnv := { uploadEnvW with scaleRenameOk := fun _ => false }

/-- Import environment reaching the derivative loop with every derivative
encode failing. -/
def importEnvWF : ImportEnv := { importEnvW with scaleOk := fun _ => false }

/-- Playback environment: catalogued video `abc`, quality `720p` requested,
derivative absent, stream of two chunks whose second write fails (client
disconnect). -/
def watchEnvW : WatchEnv :=
  ⟨"abc", none, [("abc", ⟨"abc", "My Video", "/videos/abc.mp4"⟩)], "720p",
   fun _ => false, true, true, true, [⟨7, false, true⟩, ⟨5, false, false⟩]⟩


/-- Spec-stated variant of name resolution (refinement reference for C3):
the stem is used exactly when filename preservation is enabled for the
target collection (globally or per collection), otherwise a short random
token; collision loop unchanged. -/
def newVideoFileNameSpec (cfg : Config) (lib : Library) (targetLibraryDir : String)
    (o : FsOracle) (fuel : Nat) (candidateFilename : String) (locations : List String)
    (uuid : Nat → String) : Option (Except Unit String) :=
  newVideoFileNameLoop o candidateFilename locations uuid fuel
    (if preserveUploadFilenameIsEnabled cfg lib targetLibraryDir then 0 else 1)
    (if preserveUploadFilenameIsEnabled cfg lib targetLibraryDir
      then basenameWithoutExtension candidateFilename ++ ".mp4"
      else uuid 0 ++ ".mp4")

/-- Oracle for a collision run: `movie.mp4` already exists in the target
collection. -/
def oracleColW : FsOracle :=
  ⟨fun _ _ => false, fun p => if p = "/videos/movie.mp4" then .statOk else .notExist⟩

/-! ### String and path lemmas -/

/-! ### Basic string lemmas -/

theorem strData_append (a b : String) : (a ++ b).data = a.data ++ b.data := rfl

theorem strEq_of_data {a b : String} (h : a.data = b.data) : a = b := by
  cases a; cases b; simp_all

theorem listPre_append_self (a b : List Char) : listPre a (a ++ b) = true := by
  induction a with
  | nil => rfl
  | cons c t ih => simp [listPre, ih]

theorem takeWhile_append_stop {p : Char → Bool} {x : Char} (h : p x = false) (a b : List Char) :
    (a ++ x :: b).takeWhile p = a.takeWhile p := by
  induction a with
  | nil => simp [List.takeWhile_cons, h]
  | cons c t ih => by_cases hc : p c <;> simp [List.takeWhile_cons, hc, ih]

theorem dropWhile_append_stop {p : Char → Bool} {x : Char} (h : p x = false) (a b : List Char) :
    (a ++ x :: b).dropWhile p = a.dropWhile p ++ x :: b := by
  induction a with
  | nil => simp [List.dropWhile_cons, h]
  | cons c t ih => by_cases hc : p c <;> simp [List.dropWhile_cons, hc, ih]

theorem rev_slash (d nm : String) :
    (d ++ "/" ++ nm).data.reverse = nm.data.reverse ++ '/' :: d.data.reverse := by
  show ((d.data ++ ['/']) ++ nm.data).reverse = nm.data.reverse ++ '/' :: d.data.reverse
  simp

theorem goExt_slash (d nm : String) : goExt (d ++ "/" ++ nm) = goExt nm := by
  unfold goExt
  rw [rev_slash]
  rw [dropWhile_append_stop (by decide) _ _, takeWhile_append_stop (by decide) _ _]
  cases hA : nm.data.reverse.dropWhile extStop with
  | nil => simp
  | cons c t => simp

theorem goExt_suffix (s : String) : ∃ t, s.data = t ++ (goExt s).data := by
  cases hA : s.data.reverse.dropWhile extStop with
  | nil => exact ⟨s.data, by unfold goExt; simp [hA]⟩
  | cons c t =>
    by_cases hc : c = '.'
    · subst hc
      refine ⟨t.reverse, ?_⟩
      have hext : (goExt s).data = '.' :: (s.data.reverse.takeWhile extStop).reverse := by
        unfold goExt; simp [hA]
      have h1 : s.data.reverse.takeWhile extStop ++ '.' :: t = s.data.reverse := by
        rw [← hA]; exact List.takeWhile_append_dropWhile extStop s.data.reverse
      have h2 : s.data = (s.data.reverse.takeWhile extStop ++ '.' :: t).reverse := by
        rw [h1]; simp
      rw [hext]
      conv_lhs => rw [h2]
      simp
    · refine ⟨s.data, ?_⟩
      unfold goExt
      simp [hA, hc]

theorem goExt_len_le (s : String) : (goExt s).data.length ≤ s.data.length := by
  obtain ⟨t, ht⟩ := goExt_suffix s
  rw [ht]; simp

theorem pwe_data (s : String) :
    (pathWithoutExtension s).data = s.data.take (s.data.length - (goExt s).data.length) := rfl

theorem pwe_slash (d nm : String) :
    pathWithoutExtension (d ++ "/" ++ nm) = d ++ "/" ++ pathWithoutExtension nm := by
  apply strEq_of_data
  have hlen : (goExt nm).data.length ≤ nm.data.length := goExt_len_le nm
  have h1 : (pathWithoutExtension (d ++ "/" ++ nm)).data
      = ((d ++ "/").data ++ nm.data).take (((d ++ "/").data ++ nm.data).length
          - (goExt nm).data.length) := by
    rw [pwe_data, goExt_slash]
    rfl
  have h2 : (d ++ "/" ++ pathWithoutExtension nm).data
      = (d ++ "/").data ++ nm.data.take (nm.data.length - (goExt nm).data.length) := by
    rw [strData_append, pwe_data]
  rw [h1, h2, List.length_append, List.take_append_eq_append_take]
  congr 1
  · exact List.take_of_length_le (by omega)
  · congr 1
    omega

theorem pwe_ext_concat (s : String) : pathWithoutExtension s ++ goExt s = s := by
  apply strEq_of_data
  obtain ⟨t, ht⟩ := goExt_suffix s
  rw [strData_append, pwe_data, ht]
  have h : (t ++ (goExt s).data).length - (goExt s).data.length = t.length := by simp
  rw [h, List.take_left]

theorem trimSuffix_ext (s : String) : goTrimSuffix s (goExt s) = pathWithoutExtension s := by
  unfold goTrimSuffix
  obtain ⟨t, ht⟩ := goExt_suffix s
  have hsuf : listSuf (goExt s).data s.data = true := by
    unfold listSuf
    rw [ht, List.reverse_append]
    exact listPre_append_self _ _
  rw [hsuf]
  rfl

theorem goExt_head (s : String) :
    goExt s = "" ∨ ∃ t, (goExt s).data = '.' :: t := by
  unfold goExt
  by_cases h : (s.data.reverse.dropWhile extStop).head? = some '.'
  · right; exact ⟨(s.data.reverse.takeWhile extStop).reverse, by simp [h]⟩
  · left; simp [h]

/-! ### Concrete-extension and inequality lemmas -/

theorem goExt_jpg (x : String) : goExt (x ++ ".jpg") = ".jpg" := by
  unfold goExt
  have h : (x ++ ".jpg").data.reverse = 'g' :: 'p' :: 'j' :: '.' :: x.data.reverse := by
    show (x.data ++ ['.', 'j', 'p', 'g']).reverse = _
    simp
  rw [h]
  simp [List.dropWhile_cons, List.takeWhile_cons, extStop]

theorem goExt_mp4 (x : String) : goExt (x ++ ".mp4") = ".mp4" := by
  unfold goExt
  have h : (x ++ ".mp4").data.reverse = '4' :: 'p' :: 'm' :: '.' :: x.data.reverse := by
    show (x.data ++ ['.', 'm', 'p', '4']).reverse = _
    simp
  rw [h]
  simp [List.dropWhile_cons, List.takeWhile_cons, extStop]

theorem pwe_concat_jpg (x : String) : pathWithoutExtension (x ++ ".jpg") = x := by
  apply strEq_of_data
  rw [pwe_data, goExt_jpg, strData_append]
  have h4 : (".jpg" : String).data = ['.', 'j', 'p', 'g'] := rfl
  rw [h4]
  simp

theorem pwe_concat_mp4 (x : String) : pathWithoutExtension (x ++ ".mp4") = x := by
  apply strEq_of_data
  rw [pwe_data, goExt_mp4, strData_append]
  have h4 : (".mp4" : String).data = ['.', 'm', 'p', '4'] := rfl
  rw [h4]
  simp

theorem append_cons_ne {c₁ c₂ : Char} (hc : c₁ ≠ c₂) (x t₁ t₂ : List Char) :
    x ++ c₁ :: t₁ ≠ x ++ c₂ :: t₂ := by
  intro he
  have h2 := List.append_cancel_left he
  simp at h2
  exact hc h2.1

theorem append_cons_ne_self (x : List Char) (c : Char) (t : List Char) :
    x ++ c :: t ≠ x := by
  intro he
  have hl := congrArg List.length he
  simp at hl

theorem hash_data (a sfx : String) :
    (a ++ "#" ++ sfx ++ ".mp4").data = a.data ++ '#' :: (sfx.data ++ (".mp4" : String).data) := by
  show ((a.data ++ ['#']) ++ sfx.data) ++ (".mp4" : String).data = _
  simp

theorem jpg_data (a : String) :
    (a ++ ".jpg").data = a.data ++ '.' :: ['j', 'p', 'g'] := rfl

/-- A derivative target `<stem>#<suffix>.mp4` never collides with the master
`<stem><ext>` (an extension is empty or starts with a dot) nor with the
thumbnail `<stem>.jpg`. -/
theorem deriv_dst_ne (nvp sfx : String) :
    pathWithoutExtension nvp ++ "#" ++ sfx ++ ".mp4" ≠ nvp ∧
    pathWithoutExtension nvp ++ "#" ++ sfx ++ ".mp4" ≠ pathWithoutExtension nvp ++ ".jpg" := by
  constructor
  · intro he
    have hd := congrArg String.data he
    rw [hash_data] at hd
    rcases goExt_head nvp with h | ⟨t, ht⟩
    · have h2 : nvp.data = (pathWithoutExtension nvp).data := by
        have h3 := congrArg String.data (pwe_ext_concat nvp)
        rw [strData_append, h] at h3
        simpa using h3.symm
      rw [h2] at hd
      exact append_cons_ne_self _ _ _ hd
    · have h2 : nvp.data = (pathWithoutExtension nvp).data ++ '.' :: t := by
        have h3 := congrArg String.data (pwe_ext_concat nvp)
        rw [strData_append, ht] at h3
        exact h3.symm
      rw [h2] at hd
      exact append_cons_ne (by decide) _ _ _ hd
  · intro he
    have hd := congrArg String.data he
    rw [hash_data, jpg_data] at hd
    exact append_cons_ne (by decide) _ _ _ hd

/-! ### Name-resolution lemmas (`newVideoFileName`) -/

/-- With an error-free oracle the existence check never returns an error. -/
theorem fileExistsAtAnyLocation_no_error {o : FsOracle}
    (h1 : ∀ l f, o.sjFail l f = false) (h2 : ∀ p, o.stat p ≠ .statErr) (f : String) :
    ∀ locs, fileExistsAtAnyLocation o f locs ≠ .error () := by
  intro locs
  induction locs with
  | nil => simp [fileExistsAtAnyLocation]
  | cons loc rest ih =>
    simp only [fileExistsAtAnyLocation, fileExistsAtLocation, h1]
    cases hs : o.stat (loc ++ "/" ++ f) with
    | statOk => simp
    | notExist => simpa using ih
    | statErr => exact absurd hs (h2 _)

/-- The collision loop never reports an error: every terminating run
returns `.ok`. -/
theorem newVideoFileNameLoop_ok (o : FsOracle) (cand : String) (locs : List String)
    (uuid : Nat → String) :
    ∀ fuel k nm r, newVideoFileNameLoop o cand locs uuid fuel k nm = some r →
      ∃ s, r = .ok s := by
  intro fuel
  induction fuel with
  | zero => intro k nm r h; simp [newVideoFileNameLoop] at h
  | succ fuel ih =>
    intro k nm r h
    simp only [newVideoFileNameLoop] at h
    cases hc : fileExistsAtAnyLocation o nm locs with
    | ok b =>
      cases b with
      | true => rw [hc] at h; exact ih _ _ _ h
      | false => rw [hc] at h; exact ⟨nm, by simpa using h.symm⟩
    | error u => rw [hc] at h; exact ⟨nm, by simpa using h.symm⟩

/-- Exact characterization of a terminating collision loop under an
error-free oracle: the returned name passes the existence check, and is
either the current candidate or a suffixed retry. -/
theorem newVideoFileNameLoop_spec {o : FsOracle} (cand : String) (locs : List String)
    (uuid : Nat → String)
    (h1 : ∀ l f, o.sjFail l f = false) (h2 : ∀ p, o.stat p ≠ .statErr) :
    ∀ fuel k nm res, newVideoFileNameLoop o cand locs uuid fuel k nm = some (.ok res) →
      fileExistsAtAnyLocation o res locs = .ok false ∧
      (res = nm ∨ ∃ j, k ≤ j ∧ res = basenameWithoutExtension cand ++ "_" ++ uuid j ++ ".mp4") := by
  intro fuel
  induction fuel with
  | zero => intro k nm res h; simp [newVideoFileNameLoop] at h
  | succ fuel ih =>
    intro k nm res h
    simp only [newVideoFileNameLoop] at h
    cases hc : fileExistsAtAnyLocation o nm locs with
    | ok b =>
      cases b with
      | true =>
        rw [hc] at h
        obtain ⟨hex, hshape⟩ := ih _ _ _ h
        refine ⟨hex, .inr ?_⟩
        rcases hshape with rfl | ⟨j, hj, hres⟩
        · exact ⟨k, le_refl k, rfl⟩
        · exact ⟨j, by omega, hres⟩
      | false =>
        rw [hc] at h
        simp at h
        rw [← h]
        exact ⟨hc, .inl rfl⟩
    | error u =>
      exact absurd hc (by cases u; exact fileExistsAtAnyLocation_no_error h1 h2 nm locs)

/-! ### Handler lemmas -/

/-! ### Upload derivative-loop lemmas -/

theorem uploadScaleLoop_success {cfg : Config} {e : UploadEnv} {sp tvp nvp : String} :
    ∀ sizes k tr defs msg,
      (uploadScaleLoop cfg e sp tvp nvp sizes k tr defs).2 = .success msg →
      uploadScaleLoop cfg e sp tvp nvp sizes k tr defs
        = (tr ++ uploadScaleEvs cfg e sp tvp nvp sizes ++ defs,
           .success "Video successfully uploaded!") := by
  intro sizes
  induction sizes with
  | nil =>
    intro k tr defs msg h
    simp [uploadScaleLoop, uploadScaleEvs, finish]
  | cons hd rest ih =>
    intro k tr defs msg h
    obtain ⟨size, sfx⟩ := hd
    cases hs : e.scaleOk k with
    | false =>
      simp only [uploadScaleLoop, hs] at h
      simp [finish] at h
    | true =>
      cases hr : e.scaleRenameOk k with
      | false =>
        simp only [uploadScaleLoop, hs, hr] at h
        simp [finish] at h
      | true =>
        simp only [uploadScaleLoop, hs, hr] at h ⊢
        rw [ih _ _ _ _ h]
        simp [uploadScaleEvs]

/-- Every event the upload derivative loop appends beyond its inputs is a
scale invocation reading the staged source into scratch or a rename of a
`#`-suffixed scratch file to its `#`-suffixed collection target. -/
theorem uploadScaleEvs_shape {cfg : Config} {e : UploadEnv} {sp tvp nvp : String} :
    ∀ sizes ev, ev ∈ uploadScaleEvs cfg e sp tvp nvp sizes →
      (∃ size sfx, (size, sfx) ∈ sizes ∧
        ev = createScaledVideo cfg.transcoder.timeout sp
          (goTrimSuffix tvp (goExt tvp) ++ "#" ++ sfx ++ ".mp4")
          e.videoTitle e.videoDescription size) ∨
      (∃ size sfx, (size, sfx) ∈ sizes ∧
        ev = Ev.osRename (goTrimSuffix tvp (goExt tvp) ++ "#" ++ sfx ++ ".mp4")
          (goTrimSuffix nvp (goExt nvp) ++ "#" ++ sfx ++ ".mp4")) := by
  intro sizes
  induction sizes with
  | nil => intro ev h; simp [uploadScaleEvs] at h
  | cons hd rest ih =>
    intro ev h
    obtain ⟨size, sfx⟩ := hd
    simp only [uploadScaleEvs, List.mem_cons] at h
    rcases h with rfl | h
    · exact .inl ⟨size, sfx, by simp, rfl⟩
    rcases h with rfl | h
    · exact .inr ⟨size, sfx, by simp, rfl⟩
    · rcases ih ev h with ⟨s2, x2, hm, he⟩ | ⟨s2, x2, hm, he⟩
      · exact .inl ⟨s2, x2, by simp [hm], he⟩
      · exact .inr ⟨s2, x2, by simp [hm], he⟩

/-! ### Import derivative-loop lemmas -/

theorem importScaleLoop_success {cfg : Config} {e : ImportEnv} {vf : String} :
    ∀ sizes k tr defs msg,
      (importScaleLoop cfg e vf sizes k tr defs).2 = .success msg →
      importScaleLoop cfg e vf sizes k tr defs
        = (tr ++ importScaleEvs cfg e vf sizes ++ defs,
           .success "Video successfully imported!") := by
  intro sizes
  induction sizes with
  | nil =>
    intro k tr defs msg h
    simp [importScaleLoop, importScaleEvs, finish]
  | cons hd rest ih =>
    intro k tr defs msg h
    obtain ⟨size, sfx⟩ := hd
    cases hs : e.scaleOk k with
    | false =>
      simp only [importScaleLoop, hs] at h
      simp [finish] at h
    | true =>
      simp only [importScaleLoop, hs] at h ⊢
      rw [ih _ _ _ _ h]
      simp [importScaleEvs]

/-- Every event the import derivative loop appends is an encode reading the
published master `vf` and writing the `#`-suffixed file beside it; in
particular none is a rename. -/
theorem importScaleEvs_shape {cfg : Config} {e : ImportEnv} {vf : String} :
    ∀ sizes ev, ev ∈ importScaleEvs cfg e vf sizes →
      ∃ size sfx, (size, sfx) ∈ sizes ∧
        ev = Ev.runCmd cfg.transcoder.timeout "ffmpeg"
          ["-y", "-i", vf, "-s", size, "-c:v", "libx264", "-c:a", "aac", "-crf", "18",
           "-strict", "-2", "-loglevel", "quiet",
           "-metadata", "title=" ++ e.info.title, "-metadata", "comment=" ++ e.info.description,
           goTrimSuffix vf (goExt vf) ++ "#" ++ sfx ++ ".mp4"] := by
  intro sizes
  induction sizes with
  | nil => intro ev h; simp [importScaleEvs] at h
  | cons hd rest ih =>
    intro ev h
    obtain ⟨size, sfx⟩ := hd
    simp only [importScaleEvs, List.mem_cons] at h
    rcases h with rfl | h
    · exact ⟨size, sfx, by simp, rfl⟩
    · obtain ⟨s2, x2, hm, he⟩ := ih ev h
      exact ⟨s2, x2, by simp [hm], he⟩

/-! ### Upload handler shape lemmas -/

theorem uploadHandlerPost_success {cfg : Config} {lib : Library} {fuel : Nat} {e : UploadEnv}
    {msg : String}
    (h : (uploadHandlerPost cfg lib fuel e).2 = .success msg) :
    ∃ nm, newVideoFileName e.fs fuel e.uploadFilename [e.targetField, cfg.server.uploadPath] e.uuid
        = some (.ok nm) ∧
      uploadHandlerPost cfg lib fuel e
        = (uploadSuccessTrace cfg e nm, .success "Video successfully uploaded!") := by
  cases hL : lookupPath lib e.targetField with
  | none => simp only [uploadHandlerPost, hL] at h; simp at h
  | some p0 =>
  cases hF : e.formFileOk with
  | false => simp only [uploadHandlerPost, hL, hF] at h; simp at h
  | true =>
  cases hN : newVideoFileName e.fs fuel e.uploadFilename [e.targetField, cfg.server.uploadPath] e.uuid with
  | none => simp only [uploadHandlerPost, hL, hF, hN] at h; simp at h
  | some r =>
  cases r with
  | error u => simp only [uploadHandlerPost, hL, hF, hN] at h; simp at h
  | ok nm =>
  refine ⟨nm, rfl, ?_⟩
  cases hSC : e.stagedCreateOk with
  | false => simp only [uploadHandlerPost, hL, hF, hN, hSC] at h; simp at h
  | true =>
  cases hCP : e.copyOk with
  | false => simp only [uploadHandlerPost, hL, hF, hN, hSC, hCP] at h; simp at h
  | true =>
  cases hSJ : e.fs.sjFail cfg.server.uploadPath nm with
  | true => simp only [uploadHandlerPost, hL, hF, hN, hSC, hCP, hSJ] at h; simp [finish] at h
  | false =>
  cases hCR : e.createOk with
  | false => simp only [uploadHandlerPost, hL, hF, hN, hSC, hCP, hSJ, hCR] at h; simp [finish] at h
  | true =>
  cases hT : e.transcodeOk with
  | false =>
    simp only [uploadHandlerPost, hL, hF, hN, hSC, hCP, hSJ, hCR, hT] at h; simp [finish] at h
  | true =>
  cases hTH : e.thumbOk with
  | false =>
    simp only [uploadHandlerPost, hL, hF, hN, hSC, hCP, hSJ, hCR, hT, hTH] at h
    simp [finish] at h
  | true =>
  cases hRT : e.renameThumbOk with
  | false =>
    simp only [uploadHandlerPost, hL, hF, hN, hSC, hCP, hSJ, hCR, hT, hTH, hRT] at h
    simp [finish] at h
  | true =>
  cases hRV : e.renameVideoOk with
  | false =>
    simp only [uploadHandlerPost, hL, hF, hN, hSC, hCP, hSJ, hCR, hT, hTH, hRT, hRV] at h
    simp [finish] at h
  | true =>
  simp only [uploadHandlerPost, hL, hF, hN, hSC, hCP, hSJ, hCR, hT, hTH, hRT, hRV] at h ⊢
  rw [uploadScaleLoop_success _ _ _ _ _ h]
  simp [uploadSuccessTrace]

/-- Closed form of an upload run in which every step up to and including the
master publication succeeds and the first derivative encode fails. -/
theorem uploadHandlerPost_derivFail {cfg : Config} {lib : Library} {fuel : Nat} {e : UploadEnv}
    {p0 : LibPath} {nm size sfx : String} {rest : List (String × String)}
    (hL : lookupPath lib e.targetField = some p0)
    (hF : e.formFileOk = true)
    (hN : newVideoFileName e.fs fuel e.uploadFilename [e.targetField, cfg.server.uploadPath] e.uuid
        = some (.ok nm))
    (hSC : e.stagedCreateOk = true) (hCP : e.copyOk = true)
    (hSJ : e.fs.sjFail cfg.server.uploadPath nm = false)
    (hCR : e.createOk = true) (hT : e.transcodeOk = true) (hTH : e.thumbOk = true)
    (hRT : e.renameThumbOk = true) (hRV : e.renameVideoOk = true)
    (hsz : cfg.transcoder.sizes = (size, sfx) :: rest)
    (hs0 : e.scaleOk 0 = false) :
    uploadHandlerPost cfg lib fuel e =
      ([Ev.tempFile cfg.server.uploadPath ("tube-upload-" ++ e.stagedToken ++ goExt e.uploadFilename),
        Ev.osCreate (cfg.server.uploadPath ++ "/" ++ nm),
        createVideo cfg.transcoder.timeout
          (cfg.server.uploadPath ++ "/" ++ ("tube-upload-" ++ e.stagedToken ++ goExt e.uploadFilename))
          (cfg.server.uploadPath ++ "/" ++ nm) e.videoTitle e.videoDescription,
        createThumbnail cfg.thumbnailer.timeout cfg.thumbnailer.positionFromStart
          (cfg.server.uploadPath ++ "/" ++ ("tube-upload-" ++ e.stagedToken ++ goExt e.uploadFilename))
          (pathWithoutExtension (cfg.server.uploadPath ++ "/" ++ nm) ++ ".jpg"),
        Ev.osRename (pathWithoutExtension (cfg.server.uploadPath ++ "/" ++ nm) ++ ".jpg")
          (pathWithoutExtension (goJoin e.targetField nm) ++ ".jpg"),
        Ev.osRename (cfg.server.uploadPath ++ "/" ++ nm) (goJoin e.targetField nm),
        createScaledVideo cfg.transcoder.timeout
          (cfg.server.uploadPath ++ "/" ++ ("tube-upload-" ++ e.stagedToken ++ goExt e.uploadFilename))
          (goTrimSuffix (cfg.server.uploadPath ++ "/" ++ nm) (goExt (cfg.server.uploadPath ++ "/" ++ nm))
            ++ "#" ++ sfx ++ ".mp4")
          e.videoTitle e.videoDescription size,
        Ev.osRemove (cfg.server.uploadPath ++ "/" ++ nm),
        Ev.osRemove (cfg.server.uploadPath ++ "/" ++ ("tube-upload-" ++ e.stagedToken ++ goExt e.uploadFilename))],
       .httpErr 500 "error transcoding video") := by
  simp only [uploadHandlerPost, hL, hF, hN, hSC, hCP, hSJ, hCR, hT, hTH, hRT, hRV, hsz,
    uploadScaleLoop, hs0, finish]
  simp

/-! ### Import handler shape lemmas -/

theorem importHandlerPost_success {cfg : Config} {lib : Library} {e : ImportEnv} {msg : String}
    (h : (importHandlerPost cfg lib e).2 = .success msg) :
    ∃ collection restKeys p, sortStrings (lib.paths.map Prod.fst) = collection :: restKeys ∧
      lookupPath lib collection = some p ∧
      importHandlerPost cfg lib e
        = (importSuccessTrace cfg e p.path, .success "Video successfully imported!") := by
  cases hU : e.url == "" with
  | true => simp only [importHandlerPost, hU] at h; simp at h
  | false =>
  cases hK : sortStrings (lib.paths.map Prod.fst) with
  | nil => simp only [importHandlerPost, hU, hK] at h; simp at h
  | cons collection restKeys =>
  refine ⟨collection, restKeys, ?_⟩
  cases hI : e.importerOk with
  | false => simp only [importHandlerPost, hU, hK, hI] at h; simp at h
  | true =>
  cases hV : e.videoInfoOk with
  | false => simp only [importHandlerPost, hU, hK, hI, hV] at h; simp at h
  | true =>
  cases hUF : e.ufCreateOk with
  | false => simp only [importHandlerPost, hU, hK, hI, hV, hUF] at h; simp at h
  | true =>
  cases hH : e.headOk with
  | false => simp only [importHandlerPost, hU, hK, hI, hV, hUF, hH] at h; simp [finish] at h
  | true =>
  cases hCL : e.contentLength == -1 with
  | true => simp only [importHandlerPost, hU, hK, hI, hV, hUF, hH, hCL] at h; simp [finish] at h
  | false =>
  by_cases hM : cfg.server.maxUploadSize < e.contentLength
  case pos =>
    simp only [importHandlerPost, hU, hK, hI, hV, hUF, hH, hCL, if_pos hM] at h
    simp [finish] at h
  case neg =>
  cases hDV : e.dlVideoOk with
  | false =>
    simp only [importHandlerPost, hU, hK, hI, hV, hUF, hH, hCL, if_neg hM, hDV] at h
    simp [finish] at h
  | true =>
  cases hTF : e.tfCreateOk with
  | false =>
    simp only [importHandlerPost, hU, hK, hI, hV, hUF, hH, hCL, if_neg hM, hDV, hTF] at h
    simp [finish] at h
  | true =>
  cases hLP : lookupPath lib collection with
  | none =>
    simp only [importHandlerPost, hU, hK, hI, hV, hUF, hH, hCL, if_neg hM, hDV, hTF, hLP] at h
    simp [finish] at h
  | some p =>
  refine ⟨p, rfl, rfl, ?_⟩
  cases hDT : e.dlThumbOk with
  | false =>
    simp only [importHandlerPost, hU, hK, hI, hV, hUF, hH, hCL, if_neg hM, hDV, hTF, hLP, hDT] at h
    simp [finish] at h
  | true =>
  cases hT : e.transcodeOk with
  | false =>
    simp only [importHandlerPost, hU, hK, hI, hV, hUF, hH, hCL, if_neg hM, hDV, hTF, hLP, hDT,
      hT] at h
    simp [finish] at h
  | true =>
  cases hRT : e.renameThumbOk with
  | false =>
    simp only [importHandlerPost, hU, hK, hI, hV, hUF, hH, hCL, if_neg hM, hDV, hTF, hLP, hDT,
      hT, hRT] at h
    simp [finish] at h
  | true =>
  cases hRV : e.renameVideoOk with
  | false =>
    simp only [importHandlerPost, hU, hK, hI, hV, hUF, hH, hCL, if_neg hM, hDV, hTF, hLP, hDT,
      hT, hRT, hRV] at h
    simp [finish] at h
  | true =>
  simp only [importHandlerPost, hU, hK, hI, hV, hUF, hH, hCL, if_neg hM, hDV, hTF, hLP, hDT,
    hT, hRT, hRV] at h ⊢
  rw [importScaleLoop_success _ _ _ _ _ h]
  simp [importSuccessTrace]

/-- Closed form of an import run in which every step up to and including the
master publication succeeds and the first derivative encode fails. -/
theorem importHandlerPost_derivFail {cfg : Config} {lib : Library} {e : ImportEnv}
    {collection : String} {restKeys : List String} {p : LibPath} {size sfx : String}
    {rest : List (String × String)}
    (hU : (e.url == "") = false)
    (hK : sortStrings (lib.paths.map Prod.fst) = collection :: restKeys)
    (hI : e.importerOk = true) (hV : e.videoInfoOk = true) (hUF : e.ufCreateOk = true)
    (hH : e.headOk = true) (hCL : (e.contentLength == -1) = false)
    (hM : ¬ cfg.server.maxUploadSize < e.contentLength)
    (hDV : e.dlVideoOk = true) (hTF : e.tfCreateOk = true)
    (hLP : lookupPath lib collection = some p)
    (hDT : e.dlThumbOk = true) (hT : e.transcodeOk = true)
    (hRT : e.renameThumbOk = true) (hRV : e.renameVideoOk = true)
    (hsz : cfg.transcoder.sizes = (size, sfx) :: rest)
    (hs0 : e.scaleOk 0 = false) :
    importHandlerPost cfg lib e =
      ([Ev.tempFile cfg.server.uploadPath ("tube-import-" ++ e.ufToken ++ ".mp4"),
        Ev.httpHead e.info.videoURL,
        Ev.download e.info.videoURL
          (cfg.server.uploadPath ++ "/" ++ ("tube-import-" ++ e.ufToken ++ ".mp4")),
        Ev.tempFile cfg.server.uploadPath ("tube-transcode-" ++ e.tfToken ++ ".mp4"),
        Ev.download e.info.thumbnailURL
          (goTrimSuffix (cfg.server.uploadPath ++ "/" ++ ("tube-transcode-" ++ e.tfToken ++ ".mp4"))
            (goExt (cfg.server.uploadPath ++ "/" ++ ("tube-transcode-" ++ e.tfToken ++ ".mp4")))
            ++ ".jpg"),
        Ev.runCmd cfg.transcoder.timeout "ffmpeg"
          ["-y", "-i", cfg.server.uploadPath ++ "/" ++ ("tube-import-" ++ e.ufToken ++ ".mp4"),
           "-vcodec", "h264", "-acodec", "aac", "-strict", "-2", "-loglevel", "quiet",
           "-metadata", "title=" ++ e.info.title, "-metadata", "comment=" ++ e.info.description,
           cfg.server.uploadPath ++ "/" ++ ("tube-transcode-" ++ e.tfToken ++ ".mp4")],
        Ev.osRename
          (goTrimSuffix (cfg.server.uploadPath ++ "/" ++ ("tube-transcode-" ++ e.tfToken ++ ".mp4"))
            (goExt (cfg.server.uploadPath ++ "/" ++ ("tube-transcode-" ++ e.tfToken ++ ".mp4")))
            ++ ".jpg")
          (goTrimSuffix (goJoin p.path (e.vfToken ++ ".mp4")) (goExt (goJoin p.path (e.vfToken ++ ".mp4")))
            ++ ".jpg"),
        Ev.osRename (cfg.server.uploadPath ++ "/" ++ ("tube-transcode-" ++ e.tfToken ++ ".mp4"))
          (goJoin p.path (e.vfToken ++ ".mp4")),
        Ev.runCmd cfg.transcoder.timeout "ffmpeg"
          ["-y", "-i", goJoin p.path (e.vfToken ++ ".mp4"), "-s", size, "-c:v", "libx264",
           "-c:a", "aac", "-crf", "18", "-strict", "-2", "-loglevel", "quiet",
           "-metadata", "title=" ++ e.info.title, "-metadata", "comment=" ++ e.info.description,
           goTrimSuffix (goJoin p.path (e.vfToken ++ ".mp4")) (goExt (goJoin p.path (e.vfToken ++ ".mp4")))
             ++ "#" ++ sfx ++ ".mp4"],
        Ev.osRemove (cfg.server.uploadPath ++ "/" ++ ("tube-import-" ++ e.ufToken ++ ".mp4"))],
       .httpErr 500 "error transcoding video") := by
  simp only [importHandlerPost, hU, hK, hI, hV, hUF, hH, hCL, if_neg hM, hDV, hTF, hLP, hDT,
    hT, hRT, hRV, hsz, importScaleLoop, hs0, finish]
  simp

/-! ### Deferred-cleanup membership lemmas -/

theorem uploadScaleLoop_defs_mem {cfg : Config} {e : UploadEnv} {sp tvp nvp : String} :
    ∀ sizes k tr defs x, x ∈ defs →
      x ∈ (uploadScaleLoop cfg e sp tvp nvp sizes k tr defs).1 := by
  intro sizes
  induction sizes with
  | nil => intro k tr defs x hx; simp [uploadScaleLoop, finish, hx]
  | cons hd rest ih =>
    intro k tr defs x hx
    obtain ⟨size, sfx⟩ := hd
    cases hs : e.scaleOk k with
    | false => simp [uploadScaleLoop, hs, finish, hx]
    | true =>
      cases hr : e.scaleRenameOk k with
      | false => simp [uploadScaleLoop, hs, hr, finish, hx]
      | true =>
        simp only [uploadScaleLoop, hs, hr]
        exact ih _ _ _ _ hx

theorem importScaleLoop_defs_mem {cfg : Config} {e : ImportEnv} {vf : String} :
    ∀ sizes k tr defs x, x ∈ defs →
      x ∈ (importScaleLoop cfg e vf sizes k tr defs).1 := by
  intro sizes
  induction sizes with
  | nil => intro k tr defs x hx; simp [importScaleLoop, finish, hx]
  | cons hd rest ih =>
    intro k tr defs x hx
    obtain ⟨size, sfx⟩ := hd
    cases hs : e.scaleOk k with
    | false => simp [importScaleLoop, hs, finish, hx]
    | true =>
      simp only [importScaleLoop, hs]
      exact ih _ _ _ _ hx

/-! ### Derivative-loop lemmas at arbitrary outcome -/

theorem uploadScaleLoop_tr_mem {cfg : Config} {e : UploadEnv} {sp tvp nvp : String} :
    ∀ sizes k tr defs x, x ∈ tr →
      x ∈ (uploadScaleLoop cfg e sp tvp nvp sizes k tr defs).1 := by
  intro sizes
  induction sizes with
  | nil => intro k tr defs x hx; simp [uploadScaleLoop, finish, hx]
  | cons hd rest ih =>
    intro k tr defs x hx
    obtain ⟨size, sfx⟩ := hd
    cases hs : e.scaleOk k with
    | false => simp [uploadScaleLoop, hs, finish, hx]
    | true =>
      cases hr : e.scaleRenameOk k with
      | false => simp [uploadScaleLoop, hs, hr, finish, hx]
      | true =>
        simp only [uploadScaleLoop, hs, hr]
        exact ih _ _ _ _ (by simp [hx])

theorem importScaleLoop_tr_mem {cfg : Config} {e : ImportEnv} {vf : String} :
    ∀ sizes k tr defs x, x ∈ tr →
      x ∈ (importScaleLoop cfg e vf sizes k tr defs).1 := by
  intro sizes
  induction sizes with
  | nil => intro k tr defs x hx; simp [importScaleLoop, finish, hx]
  | cons hd rest ih =>
    intro k tr defs x hx
    obtain ⟨size, sfx⟩ := hd
    cases hs : e.scaleOk k with
    | false => simp [importScaleLoop, hs, finish, hx]
    | true =>
      simp only [importScaleLoop, hs]
      exact ih _ _ _ _ (by simp [hx])

/-- Whatever the derivative outcomes, every event of the upload derivative
loop's trace is an input event, a deferred event, a scale invocation reading
the staged source into scratch, or a rename of a `#`-suffixed scratch file
to its `#`-suffixed collection target. -/
theorem uploadScaleLoop_mem_cases {cfg : Config} {e : UploadEnv} {sp tvp nvp : String} :
    ∀ sizes k tr defs x, x ∈ (uploadScaleLoop cfg e sp tvp nvp sizes k tr defs).1 →
      x ∈ tr ∨ x ∈ defs ∨
      (∃ size sfx, (size, sfx) ∈ sizes ∧
        x = createScaledVideo cfg.transcoder.timeout sp
          (goTrimSuffix tvp (goExt tvp) ++ "#" ++ sfx ++ ".mp4")
          e.videoTitle e.videoDescription size) ∨
      (∃ size sfx, (size, sfx) ∈ sizes ∧
        x = Ev.osRename (goTrimSuffix tvp (goExt tvp) ++ "#" ++ sfx ++ ".mp4")
          (goTrimSuffix nvp (goExt nvp) ++ "#" ++ sfx ++ ".mp4")) := by
  intro sizes
  induction sizes with
  | nil =>
    intro k tr defs x hx
    simp only [uploadScaleLoop, finish, List.mem_append] at hx
    rcases hx with hx | hx
    · exact .inl hx
    · exact .inr (.inl hx)
  | cons hd rest ih =>
    intro k tr defs x hx
    obtain ⟨size, sfx⟩ := hd
    cases hs : e.scaleOk k with
    | false =>
      simp only [uploadScaleLoop, hs, finish, List.mem_append, List.mem_singleton] at hx
      rcases hx with (hx | hx) | hx
      · exact .inl hx
      · exact .inr (.inr (.inl ⟨size, sfx, by simp, hx⟩))
      · exact .inr (.inl hx)
    | true =>
      cases hr : e.scaleRenameOk k with
      | false =>
        simp only [uploadScaleLoop, hs, hr, finish, List.mem_append, List.mem_singleton] at hx
        rcases hx with ((hx | hx) | hx) | hx
        · exact .inl hx
        · exact .inr (.inr (.inl ⟨size, sfx, by simp, hx⟩))
        · exact .inr (.inr (.inr ⟨size, sfx, by simp, hx⟩))
        · exact .inr (.inl hx)
      | true =>
        simp only [uploadScaleLoop, hs, hr] at hx
        rcases ih _ _ _ _ hx with hx | hx | ⟨s2, x2, hm, he⟩ | ⟨s2, x2, hm, he⟩
        · simp only [List.mem_append, List.mem_singleton] at hx
          rcases hx with (hx | hx) | hx
          · exact .inl hx
          · exact .inr (.inr (.inl ⟨size, sfx, by simp, hx⟩))
          · exact .inr (.inr (.inr ⟨size, sfx, by simp, hx⟩))
        · exact .inr (.inl hx)
        · exact .inr (.inr (.inl ⟨s2, x2, by simp [hm], he⟩))
        · exact .inr (.inr (.inr ⟨s2, x2, by simp [hm], he⟩))

/-- Whatever the derivative outcomes, every event of the import derivative
loop's trace is an input event, a deferred event, or an encode reading the
published master `vf`; in particular none is a rename or a removal. -/
theorem importScaleLoop_mem_cases {cfg : Config} {e : ImportEnv} {vf : String} :
    ∀ sizes k tr defs x, x ∈ (importScaleLoop cfg e vf sizes k tr defs).1 →
      x ∈ tr ∨ x ∈ defs ∨
      (∃ size sfx, (size, sfx) ∈ sizes ∧
        x = Ev.runCmd cfg.transcoder.timeout "ffmpeg"
          ["-y", "-i", vf, "-s", size, "-c:v", "libx264", "-c:a", "aac", "-crf", "18",
           "-strict", "-2", "-loglevel", "quiet",
           "-metadata", "title=" ++ e.info.title, "-metadata", "comment=" ++ e.info.description,
           goTrimSuffix vf (goExt vf) ++ "#" ++ sfx ++ ".mp4"]) := by
  intro sizes
  induction sizes with
  | nil =>
    intro k tr defs x hx
    simp only [importScaleLoop, finish, List.mem_append] at hx
    rcases hx with hx | hx
    · exact .inl hx
    · exact .inr (.inl hx)
  | cons hd rest ih =>
    intro k tr defs x hx
    obtain ⟨size, sfx⟩ := hd
    cases hs : e.scaleOk k with
    | false =>
      simp only [importScaleLoop, hs, finish, List.mem_append, List.mem_singleton] at hx
      rcases hx with (hx | hx) | hx
      · exact .inl hx
      · exact .inr (.inr ⟨size, sfx, by simp, hx⟩)
      · exact .inr (.inl hx)
    | true =>
      simp only [importScaleLoop, hs] at hx
      rcases ih _ _ _ _ hx with hx | hx | ⟨s2, x2, hm, he⟩
      · simp only [List.mem_append, List.mem_singleton] at hx
        rcases hx with hx | hx
        · exact .inl hx
        · exact .inr (.inr ⟨size, sfx, by simp, hx⟩)
      · exact .inr (.inl hx)
      · exact .inr (.inr ⟨s2, x2, by simp [hm], he⟩)

/-- If any derivative step within the configured profiles fails — the encode
or the subsequent rename, at any index — the upload derivative loop aborts
with the corresponding HTTP 500. -/
theorem uploadScaleLoop_fail {cfg : Config} {e : UploadEnv} {sp tvp nvp : String} :
    ∀ sizes k tr defs,
      (∃ i, i < sizes.length ∧
        (e.scaleOk (k + i) = false ∨ e.scaleRenameOk (k + i) = false)) →
      (uploadScaleLoop cfg e sp tvp nvp sizes k tr defs).2
          = .httpErr 500 "error transcoding video" ∨
      (uploadScaleLoop cfg e sp tvp nvp sizes k tr defs).2
          = .httpErr 500 "error moving scaled video" := by
  intro sizes
  induction sizes with
  | nil =>
    intro k tr defs h
    obtain ⟨i, hi, _⟩ := h
    simp at hi
  | cons hd rest ih =>
    intro k tr defs h
    obtain ⟨size, sfx⟩ := hd
    cases hs : e.scaleOk k with
    | false => exact .inl (by simp [uploadScaleLoop, hs, finish])
    | true =>
      cases hr : e.scaleRenameOk k with
      | false => exact .inr (by simp [uploadScaleLoop, hs, hr, finish])
      | true =>
        simp only [uploadScaleLoop, hs, hr]
        obtain ⟨i, hi, hf⟩ := h
        cases i with
        | zero =>
          rcases hf with hf | hf
          · simp [hs] at hf
          · simp [hr] at hf
        | succ j =>
          refine ih (k + 1) _ _ ⟨j, ?_, ?_⟩
          · simp only [List.length_cons] at hi
            omega
          · have hkj : k + 1 + j = k + (j + 1) := by omega
            rw [hkj]
            exact hf

/-- If any derivative encode within the configured profiles fails, the
derivative loop of the import pipeline aborts with the transcoding
HTTP 500. -/
theorem importScaleLoop_fail {cfg : Config} {e : ImportEnv} {vf : String} :
    ∀ sizes k tr defs,
      (∃ i, i < sizes.length ∧ e.scaleOk (k + i) = false) →
      (importScaleLoop cfg e vf sizes k tr defs).2
          = .httpErr 500 "error transcoding video" := by
  intro sizes
  induction sizes with
  | nil =>
    intro k tr defs h
    obtain ⟨i, hi, _⟩ := h
    simp at hi
  | cons hd rest ih =>
    intro k tr defs h
    obtain ⟨size, sfx⟩ := hd
    cases hs : e.scaleOk k with
    | false => simp [importScaleLoop, hs, finish]
    | true =>
      simp only [importScaleLoop, hs]
      obtain ⟨i, hi, hf⟩ := h
      cases i with
      | zero => simp [hs] at hf
      | succ j =>
        refine ih (k + 1) _ _ ⟨j, ?_, ?_⟩
        · simp only [List.length_cons] at hi
          omega
        · have hkj : k + 1 + j = k + (j + 1) := by omega
          rw [hkj]
          exact hf

/-- Reduction of an upload run in which every step through the master
publication succeeds: the handler is the derivative loop started from the
post-publish trace and the deferred removals, with the derivative outcomes
left arbitrary. -/
theorem uploadHandlerPost_published {cfg : Config} {lib : Library} {fuel : Nat} {e : UploadEnv}
    {p0 : LibPath} {nm : String}
    (hL : lookupPath lib e.targetField = some p0)
    (hF : e.formFileOk = true)
    (hN : newVideoFileName e.fs fuel e.uploadFilename [e.targetField, cfg.server.uploadPath] e.uuid
        = some (.ok nm))
    (hSC : e.stagedCreateOk = true) (hCP : e.copyOk = true)
    (hSJ : e.fs.sjFail cfg.server.uploadPath nm = false)
    (hCR : e.createOk = true) (hT : e.transcodeOk = true) (hTH : e.thumbOk = true)
    (hRT : e.renameThumbOk = true) (hRV : e.renameVideoOk = true) :
    uploadHandlerPost cfg lib fuel e
      = uploadScaleLoop cfg e
          (cfg.server.uploadPath ++ "/"
            ++ ("tube-upload-" ++ e.stagedToken ++ goExt e.uploadFilename))
          (cfg.server.uploadPath ++ "/" ++ nm) (goJoin e.targetField nm)
          cfg.transcoder.sizes 0
          [Ev.tempFile cfg.server.uploadPath
             ("tube-upload-" ++ e.stagedToken ++ goExt e.uploadFilename),
           Ev.osCreate (cfg.server.uploadPath ++ "/" ++ nm),
           createVideo cfg.transcoder.timeout
             (cfg.server.uploadPath ++ "/"
               ++ ("tube-upload-" ++ e.stagedToken ++ goExt e.uploadFilename))
             (cfg.server.uploadPath ++ "/" ++ nm) e.videoTitle e.videoDescription,
           createThumbnail cfg.thumbnailer.timeout cfg.thumbnailer.positionFromStart
             (cfg.server.uploadPath ++ "/"
               ++ ("tube-upload-" ++ e.stagedToken ++ goExt e.uploadFilename))
             (pathWithoutExtension (cfg.server.uploadPath ++ "/" ++ nm) ++ ".jpg"),
           Ev.osRename (pathWithoutExtension (cfg.server.uploadPath ++ "/" ++ nm) ++ ".jpg")
             (pathWithoutExtension (goJoin e.targetField nm) ++ ".jpg"),
           Ev.osRename (cfg.server.uploadPath ++ "/" ++ nm) (goJoin e.targetField nm)]
          [Ev.osRemove (cfg.server.uploadPath ++ "/" ++ nm),
           Ev.osRemove (cfg.server.uploadPath ++ "/"
             ++ ("tube-upload-" ++ e.stagedToken ++ goExt e.uploadFilename))] := by
  simp only [uploadHandlerPost, hL, hF, hN, hSC, hCP, hSJ, hCR, hT, hTH, hRT, hRV]
  simp

/-- Reduction of an import run in which every step through the master
publication succeeds: the handler is the derivative loop started from the
post-publish trace and the deferred removal, with the derivative outcomes
left arbitrary. -/
theorem importHandlerPost_published {cfg : Config} {lib : Library} {e : ImportEnv}
    {collection : String} {restKeys : List String} {p : LibPath}
    (hU : (e.url == "") = false)
    (hK : sortStrings (lib.paths.map Prod.fst) = collection :: restKeys)
    (hI : e.importerOk = true) (hV : e.videoInfoOk = true) (hUF : e.ufCreateOk = true)
    (hH : e.headOk = true) (hCL : (e.contentLength == -1) = false)
    (hM : ¬ cfg.server.maxUploadSize < e.contentLength)
    (hDV : e.dlVideoOk = true) (hTF : e.tfCreateOk = true)
    (hLP : lookupPath lib collection = some p)
    (hDT : e.dlThumbOk = true) (hT : e.transcodeOk = true)
    (hRT : e.renameThumbOk = true) (hRV : e.renameVideoOk = true) :
    importHandlerPost cfg lib e
      = importScaleLoop cfg e (goJoin p.path (e.vfToken ++ ".mp4")) cfg.transcoder.sizes 0
          [Ev.tempFile cfg.server.uploadPath ("tube-import-" ++ e.ufToken ++ ".mp4"),
           Ev.httpHead e.info.videoURL,
           Ev.download e.info.videoURL
             (cfg.server.uploadPath ++ "/" ++ ("tube-import-" ++ e.ufToken ++ ".mp4")),
           Ev.tempFile cfg.server.uploadPath ("tube-transcode-" ++ e.tfToken ++ ".mp4"),
           Ev.download e.info.thumbnailURL
             (goTrimSuffix
                 (cfg.server.uploadPath ++ "/" ++ ("tube-transcode-" ++ e.tfToken ++ ".mp4"))
                 (goExt (cfg.server.uploadPath ++ "/"
                   ++ ("tube-transcode-" ++ e.tfToken ++ ".mp4")))
               ++ ".jpg"),
           Ev.runCmd cfg.transcoder.timeout "ffmpeg"
             ["-y", "-i", cfg.server.uploadPath ++ "/" ++ ("tube-import-" ++ e.ufToken ++ ".mp4"),
              "-vcodec", "h264", "-acodec", "aac", "-strict", "-2", "-loglevel", "quiet",
              "-metadata", "title=" ++ e.info.title, "-metadata",
              "comment=" ++ e.info.description,
              cfg.server.uploadPath ++ "/" ++ ("tube-transcode-" ++ e.tfToken ++ ".mp4")],
           Ev.osRename
             (goTrimSuffix
                 (cfg.server.uploadPath ++ "/" ++ ("tube-transcode-" ++ e.tfToken ++ ".mp4"))
                 (goExt (cfg.server.uploadPath ++ "/"
                   ++ ("tube-transcode-" ++ e.tfToken ++ ".mp4")))
               ++ ".jpg")
             (goTrimSuffix (goJoin p.path (e.vfToken ++ ".mp4"))
                 (goExt (goJoin p.path (e.vfToken ++ ".mp4")))
               ++ ".jpg"),
           Ev.osRename (cfg.server.uploadPath ++ "/" ++ ("tube-transcode-" ++ e.tfToken ++ ".mp4"))
             (goJoin p.path (e.vfToken ++ ".mp4"))]
          [Ev.osRemove (cfg.server.uploadPath ++ "/" ++ ("tube-import-" ++ e.ufToken ++ ".mp4"))] := by
  simp only [importHandlerPost, hU, hK, hI, hV, hUF, hH, hCL, if_neg hM, hDV, hTF, hLP, hDT,
    hT, hRT, hRV]
  simp

/-! ### Streaming-loop lemmas -/

theorem streamLoop_tr_mem :
    ∀ reads tr defs x, x ∈ tr → x ∈ (streamLoop reads tr defs).1 := by
  intro reads
  induction reads with
  | nil => intro tr defs x hx; simp [streamLoop, finish, hx]
  | cons s rest ih =>
    intro tr defs x hx
    cases hn : s.n with
    | zero => simp [streamLoop, hn, finish, hx]
    | succ m =>
      cases hre : s.readErr with
      | true => simp [streamLoop, hn, hre, finish, hx]
      | false =>
        cases hw : s.writeOk with
        | false => simp [streamLoop, hn, hre, hw, finish, hx]
        | true =>
          simp only [streamLoop, hn, hre, hw]
          exact ih _ _ _ (by simp [hx])

theorem streamLoop_last_kill :
    ∀ reads tr, ((streamLoop reads tr [Ev.killProc]).1).getLast? = some Ev.killProc := by
  intro reads
  induction reads with
  | nil => intro tr; simp [streamLoop, finish]
  | cons s rest ih =>
    intro tr
    cases hn : s.n with
    | zero => simp [streamLoop, hn, finish]
    | succ m =>
      cases hre : s.readErr with
      | true => simp [streamLoop, hn, hre, finish]
      | false =>
        cases hw : s.writeOk with
        | false => simp [streamLoop, hn, hre, hw, finish]
        | true =>
          simp only [streamLoop, hn, hre, hw]
          exact ih _

theorem streamLoop_events :
    ∀ reads tr defs x, x ∈ (streamLoop reads tr defs).1 →
      x ∈ tr ∨ x ∈ defs ∨ (∃ n, x = Ev.writeChunk n) ∨ x = Ev.flushResp := by
  intro reads
  induction reads with
  | nil =>
    intro tr defs x hx
    simp only [streamLoop, finish, List.mem_append] at hx
    tauto
  | cons s rest ih =>
    intro tr defs x hx
    cases hn : s.n with
    | zero =>
      simp only [streamLoop, hn, finish, List.mem_append] at hx
      tauto
    | succ m =>
      cases hre : s.readErr with
      | true =>
        simp only [streamLoop, hn, hre, finish, List.mem_append] at hx
        tauto
      | false =>
        cases hw : s.writeOk with
        | false =>
          simp only [streamLoop, hn, hre, hw, finish, List.mem_append, List.mem_singleton] at hx
          rcases hx with (hx | hx) | hx
          · tauto
          · exact .inr (.inr (.inl ⟨s.n, by rw [hx, hn]⟩))
          · tauto
        | true =>
          simp only [streamLoop, hn, hre, hw] at hx
          rcases ih _ _ _ hx with hx | hx | hx | hx
          · simp only [List.mem_append, List.mem_singleton] at hx
            rcases hx with (hx | hx) | hx
            · tauto
            · exact .inr (.inr (.inl ⟨s.n, by rw [hx, hn]⟩))
            · tauto
          · tauto
          · tauto
          · tauto

theorem streamLoop_write_fail :
    ∀ pre s post tr defs,
      (∀ t, t ∈ pre → 0 < t.n ∧ t.readErr = false ∧ t.writeOk = true) →
      0 < s.n → s.readErr = false → s.writeOk = false →
      (streamLoop (pre ++ s :: post) tr defs).2 = .httpErr 500 "error writing to response" := by
  intro pre
  induction pre with
  | nil =>
    intro s post tr defs hpre hn hre hw
    cases hsn : s.n with
    | zero => omega
    | succ m => simp [streamLoop, hsn, hre, hw, finish]
  | cons t rest ih =>
    intro s post tr defs hpre hn hre hw
    obtain ⟨htn, htre, htw⟩ := hpre t (by simp)
    cases htn2 : t.n with
    | zero => omega
    | succ m =>
      simp only [List.cons_append, streamLoop, htn2, htre, htw]
      exact ih s post _ _ (fun u hu => hpre u (by simp [hu])) hn hre hw

/-! ### Scratch-cleanup lemmas (deferred removals fire on every later exit) -/

/-- Once the staged upload is created and filled (its deferred removal is
registered at line 273), every exit path of the upload handler removes it. -/
theorem upload_staged_removed {cfg : Config} {lib : Library} {fuel : Nat} {e : UploadEnv}
    {p0 : LibPath} {nm : String}
    (hL : lookupPath lib e.targetField = some p0)
    (hF : e.formFileOk = true)
    (hN : newVideoFileName e.fs fuel e.uploadFilename [e.targetField, cfg.server.uploadPath] e.uuid
        = some (.ok nm))
    (hSC : e.stagedCreateOk = true) (hCP : e.copyOk = true) :
    Ev.osRemove (cfg.server.uploadPath ++ "/" ++ ("tube-upload-" ++ e.stagedToken ++ goExt e.uploadFilename))
      ∈ (uploadHandlerPost cfg lib fuel e).1 := by
  simp only [uploadHandlerPost, hL, hF, hN, hSC, hCP]
  cases hSJ : e.fs.sjFail cfg.server.uploadPath nm with
  | true => simp [finish]
  | false =>
  cases hCR : e.createOk with
  | false => simp [finish]
  | true =>
  cases hT : e.transcodeOk with
  | false => simp [finish]
  | true =>
  cases hTH : e.thumbOk with
  | false => simp [finish]
  | true =>
  cases hRT : e.renameThumbOk with
  | false => simp [finish]
  | true =>
  cases hRV : e.renameVideoOk with
  | false => simp [finish]
  | true =>
  exact uploadScaleLoop_defs_mem _ _ _ _ _ (by simp)

/-- Once the scratch transcode output is created (its deferred removal is
registered at line 289), every exit path of the upload handler removes it. -/
theorem upload_transcode_scratch_removed {cfg : Config} {lib : Library} {fuel : Nat}
    {e : UploadEnv} {p0 : LibPath} {nm : String}
    (hL : lookupPath lib e.targetField = some p0)
    (hF : e.formFileOk = true)
    (hN : newVideoFileName e.fs fuel e.uploadFilename [e.targetField, cfg.server.uploadPath] e.uuid
        = some (.ok nm))
    (hSC : e.stagedCreateOk = true) (hCP : e.copyOk = true)
    (hSJ : e.fs.sjFail cfg.server.uploadPath nm = false)
    (hCR : e.createOk = true) :
    Ev.osRemove (cfg.server.uploadPath ++ "/" ++ nm) ∈ (uploadHandlerPost cfg lib fuel e).1 := by
  simp only [uploadHandlerPost, hL, hF, hN, hSC, hCP, hSJ, hCR]
  cases hT : e.transcodeOk with
  | false => simp [finish]
  | true =>
  cases hTH : e.thumbOk with
  | false => simp [finish]
  | true =>
  cases hRT : e.renameThumbOk with
  | false => simp [finish]
  | true =>
  cases hRV : e.renameVideoOk with
  | false => simp [finish]
  | true =>
  exact uploadScaleLoop_defs_mem _ _ _ _ _ (by simp)

/-- Once the import download temp file is created (its deferred removal is
registered at line 675), every exit path of the import handler removes it. -/
theorem import_downloaded_removed {cfg : Config} {lib : Library} {e : ImportEnv}
    {collection : String} {restKeys : List String}
    (hU : (e.url == "") = false)
    (hK : sortStrings (lib.paths.map Prod.fst) = collection :: restKeys)
    (hI : e.importerOk = true) (hV : e.videoInfoOk = true) (hUF : e.ufCreateOk = true) :
    Ev.osRemove (cfg.server.uploadPath ++ "/" ++ ("tube-import-" ++ e.ufToken ++ ".mp4"))
      ∈ (importHandlerPost cfg lib e).1 := by
  simp only [importHandlerPost, hU, hK, hI, hV, hUF]
  cases hH : e.headOk with
  | false => simp [finish]
  | true =>
  cases hCL : e.contentLength == -1 with
  | true => simp [finish]
  | false =>
  by_cases hM : cfg.server.maxUploadSize < e.contentLength
  case pos => simp [if_pos hM, finish]
  case neg =>
  simp only [if_neg hM]
  cases hDV : e.dlVideoOk with
  | false => simp [finish]
  | true =>
  cases hTF : e.tfCreateOk with
  | false => simp [finish]
  | true =>
  cases hLP : lookupPath lib collection with
  | none => simp [finish]
  | some p =>
  cases hDT : e.dlThumbOk with
  | false => simp [finish]
  | true =>
  cases hT : e.transcodeOk with
  | false => simp [finish]
  | true =>
  cases hRT : e.renameThumbOk with
  | false => simp [finish]
  | true =>
  cases hRV : e.renameVideoOk with
  | false => simp [finish]
  | true =>
  exact importScaleLoop_defs_mem _ _ _ _ _ (by simp)

theorem strAppend_assoc (a b c : String) : a ++ b ++ c = a ++ (b ++ c) :=
  strEq_of_data (by simp [strData_append])

theorem uploadScaleEvs_mem {cfg : Config} {e : UploadEnv} {sp tvp nvp : String} :
    ∀ sizes size sfx, (size, sfx) ∈ sizes →
      createScaledVideo cfg.transcoder.timeout sp
          (goTrimSuffix tvp (goExt tvp) ++ "#" ++ sfx ++ ".mp4")
          e.videoTitle e.videoDescription size
        ∈ uploadScaleEvs cfg e sp tvp nvp sizes ∧
      Ev.osRename (goTrimSuffix tvp (goExt tvp) ++ "#" ++ sfx ++ ".mp4")
          (goTrimSuffix nvp (goExt nvp) ++ "#" ++ sfx ++ ".mp4")
        ∈ uploadScaleEvs cfg e sp tvp nvp sizes := by
  intro sizes
  induction sizes with
  | nil => intro size sfx h; simp at h
  | cons hd rest ih =>
    intro size sfx h
    obtain ⟨s0, x0⟩ := hd
    simp only [List.mem_cons, Prod.mk.injEq] at h
    rcases h with ⟨rfl, rfl⟩ | h
    · constructor <;> simp [uploadScaleEvs]
    · obtain ⟨h1, h2⟩ := ih size sfx h
      constructor <;> simp [uploadScaleEvs, h1, h2]

theorem importScaleEvs_mem {cfg : Config} {e : ImportEnv} {vf : String} :
    ∀ sizes size sfx, (size, sfx) ∈ sizes →
      Ev.runCmd cfg.transcoder.timeout "ffmpeg"
          ["-y", "-i", vf, "-s", size, "-c:v", "libx264", "-c:a", "aac", "-crf", "18",
           "-strict", "-2", "-loglevel", "quiet",
           "-metadata", "title=" ++ e.info.title, "-metadata", "comment=" ++ e.info.description,
           goTrimSuffix vf (goExt vf) ++ "#" ++ sfx ++ ".mp4"]
        ∈ importScaleEvs cfg e vf sizes := by
  intro sizes
  induction sizes with
  | nil => intro size sfx h; simp at h
  | cons hd rest ih =>
    intro size sfx h
    obtain ⟨s0, x0⟩ := hd
    simp only [List.mem_cons, Prod.mk.injEq] at h
    rcases h with ⟨rfl, rfl⟩ | h
    · simp [importScaleEvs]
    · simp [importScaleEvs, ih size sfx h]

theorem evWriteDst_createVideo (t : Int) (a b c d : String) :
    evWriteDst (createVideo t a b c d) = some b := rfl

theorem evWriteDst_createThumbnail (t s : Int) (a b : String) :
    evWriteDst (createThumbnail t s a b) = some b := rfl

theorem evWriteDst_createScaledVideo (t : Int) (a b c d s : String) :
    evWriteDst (createScaledVideo t a b c d s) = some b := rfl

/-! ### Directory-separation facts for the sample configuration -/

theorem sep_videos_uploads : ∀ x, underDir "/videos" ("/uploads" ++ "/" ++ x) = false := by
  intro x
  show listPre ("/videos" ++ "/").data ("/uploads" ++ "/" ++ x).data = false
  have h1 : ("/videos" ++ "/").data = '/' :: 'v' :: "ideos/".data := rfl
  have h2 : ("/uploads" ++ "/" ++ x).data = '/' :: 'u' :: ("ploads/".data ++ x.data) := rfl
  rw [h1, h2]
  simp [listPre]

theorem sep_videos_uploads_keyed :
    ∀ key q, lookupPath libW key = some q →
      ∀ x, underDir q.path ("/uploads" ++ "/" ++ x) = false := by
  intro key q hq x
  simp only [lookupPath, libW, List.find?] at hq
  cases hk : (("/videos" : String) == key) with
  | false => rw [hk] at hq; simp at hq
  | true =>
    rw [hk] at hq
    simp at hq
    rw [← hq]
    exact sep_videos_uploads x

/-! ### Claim theorems -/

/-- C7: an upload POST naming a target collection that is not registered in
the catalog fails with a validation error and has no side effects at all:
the run produces an empty event trace (no staging, no process, no write). -/
theorem unknown_collection_upload_no_side_effects
    (cfg : Config) (lib : Library) (fuel : Nat) (e : UploadEnv)
    (h : lookupPath lib e.targetField = none) :
    uploadHandlerPost cfg lib fuel e
      = ([], .httpErr 500 ("uploading to invalid library path: " ++ e.targetField)) := by
  simp [uploadHandlerPost, h]

theorem unknown_collection_upload_no_side_effects_witness :
    uploadHandlerPost cfgW libW 9 { uploadEnvW with targetField := "/nope" }
      = ([], .httpErr 500 ("uploading to invalid library path: " ++ "/nope")) :=
  unknown_collection_upload_no_side_effects cfgW libW 9 _ (by decide)

/-- C9: a POST to the import endpoint with zero configured collections
panics (indexing `keys[0]` of an empty sorted key slice) instead of
returning a validation error. -/
theorem import_with_no_collections_panics
    (cfg : Config) (lib : Library) (e : ImportEnv)
    (hpaths : lib.paths = []) (hurl : e.url ≠ "") :
    importHandlerPost cfg lib e
      = ([], .panicked "runtime error: index out of range [0] with length 0") := by
  have hU : (e.url == "") = false := by simp [hurl]
  simp [importHandlerPost, hU, hpaths, sortStrings]

theorem import_with_no_collections_panics_witness :
    importHandlerPost cfgW ⟨[]⟩ importEnvW
      = ([], .panicked "runtime error: index out of range [0] with length 0") :=
  import_with_no_collections_panics cfgW ⟨[]⟩ importEnvW rfl (by decide)

/-- C10: the collision loop of `newVideoFileName` swallows existence-check
errors: a terminating run never returns an error, and when the check of the
current candidate errors the loop exits returning that candidate with a nil
error (the in-loop error branch is unreachable because the loop condition
requires `err == nil`, and the post-loop check reads the never-assigned
named return). -/
theorem existence_check_error_swallowed
    (o : FsOracle) (cand : String) (locs : List String) (uuid : Nat → String) :
    (∀ fuel r, newVideoFileName o fuel cand locs uuid = some r → ∃ s, r = .ok s) ∧
    (∀ fuel, fileExistsAtAnyLocation o (uploadFirstCandidate cand uuid) locs = .error () →
      newVideoFileName o (fuel + 1) cand locs uuid
        = some (.ok (uploadFirstCandidate cand uuid))) := by
  constructor
  · intro fuel r h
    exact newVideoFileNameLoop_ok o cand locs uuid fuel _ _ _ h
  · intro fuel herr
    simp [newVideoFileName, newVideoFileNameLoop, herr]

theorem existence_check_error_swallowed_witness :
    fileExistsAtAnyLocation oracleErrW (uploadFirstCandidate "movie.avi" uuidW)
        ["/videos", "/uploads"] = .error () ∧
    newVideoFileName oracleErrW 1 "movie.avi" ["/videos", "/uploads"] uuidW
      = some (.ok "movie.mp4") := by
  constructor
  · rfl
  · have h := (existence_check_error_swallowed oracleErrW "movie.avi" ["/videos", "/uploads"]
      uuidW).2 0 (by rfl)
    have hc : uploadFirstCandidate "movie.avi" uuidW = "movie.mp4" := by decide
    rw [hc] at h
    exact h

/-- C2 (code bug): the import path rejects an oversized declared
Content-Length before downloading anything, but the upload path never
consults `max_upload_size`: its outcome is invariant under the payload size,
and a payload one byte over the configured limit is staged, transcoded and
published successfully (the README documents that oversized uploads are
denied). -/
theorem upload_ignores_max_upload_size :
    (∀ s : Int, uploadHandlerPost cfgW libW 9 { uploadEnvW with uploadSize := s }
      = uploadHandlerPost cfgW libW 9 uploadEnvW) ∧
    cfgW.server.maxUploadSize < uploadEnvW.uploadSize ∧
    uploadHandlerPost cfgW libW 9 uploadEnvW
      = ([Ev.tempFile "/uploads" "tube-upload-123456.avi",
          Ev.osCreate "/uploads/movie.mp4",
          createVideo 300 "/uploads/tube-upload-123456.avi" "/uploads/movie.mp4" "Test" "Demo",
          createThumbnail 60 3 "/uploads/tube-upload-123456.avi" "/uploads/movie.jpg",
          Ev.osRename "/uploads/movie.jpg" "/videos/movie.jpg",
          Ev.osRename "/uploads/movie.mp4" "/videos/movie.mp4",
          Ev.osRemove "/uploads/movie.mp4",
          Ev.osRemove "/uploads/tube-upload-123456.avi"],
         .success "Video successfully uploaded!") ∧
    importHandlerPost cfgW libW { importEnvW with contentLength := 104857601 }
      = ([Ev.tempFile "/uploads" "tube-import-111111.mp4",
          Ev.httpHead "https://cdn.example.com/v.mp4",
          Ev.osRemove "/uploads/tube-import-111111.mp4"],
         .httpErr 500 "imported video would exceed maximum upload size") := by
  exact ⟨fun s => rfl, by decide, by decide, by decide⟩

/-- C3 counterexample: with filename preservation disabled both globally and
for the target collection, upload name resolution still derives the basename
from the original filename's stem (the handler passes the raw filename
unconditionally and `preserveUploadFilenameIsEnabled` is never called),
whereas the specification mandates a short random token in that case. -/
theorem upload_name_preservation_flag_not_consulted :
    preserveUploadFilenameIsEnabled cfgW libW "/videos" = false ∧
    newVideoFileName oracleW 9 "movie.avi" ["/videos", "/uploads"] uuidW
      = some (.ok "movie.mp4") ∧
    newVideoFileNameSpec cfgW libW "/videos" oracleW 9 "movie.avi" ["/videos", "/uploads"] uuidW
      = some (.ok "K7RsTq.mp4") ∧
    ("movie.mp4" : String) ≠ "K7RsTq.mp4" ∧
    Ev.osRename "/uploads/movie.mp4" "/videos/movie.mp4"
      ∈ (uploadHandlerPost cfgW libW 9 uploadEnvW).1 := by
  have htrU : uploadHandlerPost cfgW libW 9 uploadEnvW
      = ([Ev.tempFile "/uploads" "tube-upload-123456.avi",
          Ev.osCreate "/uploads/movie.mp4",
          createVideo 300 "/uploads/tube-upload-123456.avi" "/uploads/movie.mp4" "Test" "Demo",
          createThumbnail 60 3 "/uploads/tube-upload-123456.avi" "/uploads/movie.jpg",
          Ev.osRename "/uploads/movie.jpg" "/videos/movie.jpg",
          Ev.osRename "/uploads/movie.mp4" "/videos/movie.mp4",
          Ev.osRemove "/uploads/movie.mp4",
          Ev.osRemove "/uploads/tube-upload-123456.avi"],
         .success "Video successfully uploaded!") := by decide
  exact ⟨by decide, by rfl, by rfl, by decide, by rw [htrU]; simp⟩

/-- C3 amended: the resolved basename starts from the original filename's
stem whenever a filename was supplied (the preservation flags are never
consulted), else from a random token; on collision a fresh random suffix is
appended and the check retried, and any returned name is unique in every
checked location (assuming the existence checks themselves do not error).
-/
theorem newVideoFileName_resolution
    (o : FsOracle) (fuel : Nat) (cand : String) (locs : List String) (uuid : Nat → String)
    (nm : String)
    (h1 : ∀ l f, o.sjFail l f = false) (h2 : ∀ p, o.stat p ≠ .statErr)
    (h : newVideoFileName o fuel cand locs uuid = some (.ok nm)) :
    fileExistsAtAnyLocation o nm locs = .ok false ∧
    (nm = uploadFirstCandidate cand uuid ∨
      ∃ j, nm = basenameWithoutExtension cand ++ "_" ++ uuid j ++ ".mp4") ∧
    (cand ≠ "" → uploadFirstCandidate cand uuid = basenameWithoutExtension cand ++ ".mp4") ∧
    (cand = "" → uploadFirstCandidate cand uuid = uuid 0 ++ ".mp4") := by
  obtain ⟨hex, hshape⟩ := newVideoFileNameLoop_spec cand locs uuid h1 h2 fuel _ _ _ h
  refine ⟨hex, ?_, ?_, ?_⟩
  · rcases hshape with rfl | ⟨j, _, hres⟩
    · exact .inl rfl
    · exact .inr ⟨j, hres⟩
  · intro hc; simp [uploadFirstCandidate, hc]
  · intro hc; simp [uploadFirstCandidate, hc]

theorem newVideoFileName_resolution_witness :
    fileExistsAtAnyLocation oracleColW "movie_K7RsTq.mp4" ["/videos", "/uploads"] = .ok false ∧
    ("movie_K7RsTq.mp4" = uploadFirstCandidate "movie.avi" uuidW ∨
      ∃ j, ("movie_K7RsTq.mp4" : String)
        = basenameWithoutExtension "movie.avi" ++ "_" ++ uuidW j ++ ".mp4") ∧
    ("movie.avi" ≠ "" → uploadFirstCandidate "movie.avi" uuidW
      = basenameWithoutExtension "movie.avi" ++ ".mp4") ∧
    ("movie.avi" = "" → uploadFirstCandidate "movie.avi" uuidW = uuidW 0 ++ ".mp4") := by
  refine newVideoFileName_resolution oracleColW 9 "movie.avi" ["/videos", "/uploads"] uuidW
    "movie_K7RsTq.mp4" (fun l f => rfl) ?_ (by rfl)
  intro p
  simp only [oracleColW]
  split <;> simp

/-- C6 counterexample: when the import transcode step fails, the transcode
temp file and the downloaded scratch thumbnail are left behind in the upload
directory — they are neither removed nor renamed on that exit path (only the
download temp file has a deferred removal). -/
theorem import_transcode_failure_leaves_scratch :
    (importHandlerPost cfgW libW { importEnvW with transcodeOk := false }).2
      = .httpErr 500 "error transcoding video" ∧
    Ev.tempFile "/uploads" "tube-transcode-222222.mp4"
      ∈ (importHandlerPost cfgW libW { importEnvW with transcodeOk := false }).1 ∧
    Ev.download "https://cdn.example.com/t.jpg" "/uploads/tube-transcode-222222.jpg"
      ∈ (importHandlerPost cfgW libW { importEnvW with transcodeOk := false }).1 ∧
    Ev.osRemove "/uploads/tube-transcode-222222.mp4"
      ∉ (importHandlerPost cfgW libW { importEnvW with transcodeOk := false }).1 ∧
    Ev.osRemove "/uploads/tube-transcode-222222.jpg"
      ∉ (importHandlerPost cfgW libW { importEnvW with transcodeOk := false }).1 ∧
    (∀ d, Ev.osRename "/uploads/tube-transcode-222222.mp4" d
      ∉ (importHandlerPost cfgW libW { importEnvW with transcodeOk := false }).1) ∧
    (∀ d, Ev.osRename "/uploads/tube-transcode-222222.jpg" d
      ∉ (importHandlerPost cfgW libW { importEnvW with transcodeOk := false }).1) := by
  have htrI : importHandlerPost cfgW libW { importEnvW with transcodeOk := false }
      = ([Ev.tempFile "/uploads" "tube-import-111111.mp4",
          Ev.httpHead "https://cdn.example.com/v.mp4",
          Ev.download "https://cdn.example.com/v.mp4" "/uploads/tube-import-111111.mp4",
          Ev.tempFile "/uploads" "tube-transcode-222222.mp4",
          Ev.download "https://cdn.example.com/t.jpg" "/uploads/tube-transcode-222222.jpg",
          Ev.runCmd 300 "ffmpeg"
            ["-y", "-i", "/uploads/tube-import-111111.mp4", "-vcodec", "h264", "-acodec",
             "aac", "-strict", "-2", "-loglevel", "quiet", "-metadata", "title=Test",
             "-metadata", "comment=Demo", "/uploads/tube-transcode-222222.mp4"],
          Ev.osRemove "/uploads/tube-import-111111.mp4"],
         .httpErr 500 "error transcoding video") := by decide
  refine ⟨by rw [htrI], by rw [htrI]; simp, by rw [htrI]; simp, by rw [htrI]; simp,
    by rw [htrI]; simp, ?_, ?_⟩
  · intro d hmem
    rw [htrI] at hmem
    simp at hmem
  · intro d hmem
    rw [htrI] at hmem
    simp at hmem

/-- C6 amended: the staged upload source and the scratch transcode output of
the upload pipeline, and the downloaded source of the import pipeline, are
removed on every exit path once their deferred removal is registered; the
other scratch artifacts (import transcode temp, scratch thumbnails, scratch
derivatives) have no such cleanup and are only consumed by their renames. -/
theorem staged_sources_always_removed :
    (∀ (cfg : Config) (lib : Library) (fuel : Nat) (e : UploadEnv) (p0 : LibPath) (nm : String),
      lookupPath lib e.targetField = some p0 → e.formFileOk = true →
      newVideoFileName e.fs fuel e.uploadFilename [e.targetField, cfg.server.uploadPath] e.uuid
        = some (.ok nm) →
      e.stagedCreateOk = true → e.copyOk = true →
      Ev.osRemove (cfg.server.uploadPath ++ "/"
          ++ ("tube-upload-" ++ e.stagedToken ++ goExt e.uploadFilename))
        ∈ (uploadHandlerPost cfg lib fuel e).1) ∧
    (∀ (cfg : Config) (lib : Library) (fuel : Nat) (e : UploadEnv) (p0 : LibPath) (nm : String),
      lookupPath lib e.targetField = some p0 → e.formFileOk = true →
      newVideoFileName e.fs fuel e.uploadFilename [e.targetField, cfg.server.uploadPath] e.uuid
        = some (.ok nm) →
      e.stagedCreateOk = true → e.copyOk = true →
      e.fs.sjFail cfg.server.uploadPath nm = false → e.createOk = true →
      Ev.osRemove (cfg.server.uploadPath ++ "/" ++ nm) ∈ (uploadHandlerPost cfg lib fuel e).1) ∧
    (∀ (cfg : Config) (lib : Library) (e : ImportEnv) (collection : String)
        (restKeys : List String),
      (e.url == "") = false → sortStrings (lib.paths.map Prod.fst) = collection :: restKeys →
      e.importerOk = true → e.videoInfoOk = true → e.ufCreateOk = true →
      Ev.osRemove (cfg.server.uploadPath ++ "/" ++ ("tube-import-" ++ e.ufToken ++ ".mp4"))
        ∈ (importHandlerPost cfg lib e).1) := by
  refine ⟨?_, ?_, ?_⟩
  · intro cfg lib fuel e p0 nm hL hF hN hSC hCP
    exact upload_staged_removed hL hF hN hSC hCP
  · intro cfg lib fuel e p0 nm hL hF hN hSC hCP hSJ hCR
    exact upload_transcode_scratch_removed hL hF hN hSC hCP hSJ hCR
  · intro cfg lib e collection restKeys hU hK hI hV hUF
    exact import_downloaded_removed hU hK hI hV hUF

theorem staged_sources_always_removed_witness :
    Ev.osRemove "/uploads/tube-upload-123456.avi"
      ∈ (uploadHandlerPost cfgW libW 9 { uploadEnvW with transcodeOk := false }).1 ∧
    Ev.osRemove "/uploads/movie.mp4"
      ∈ (uploadHandlerPost cfgW libW 9 { uploadEnvW with transcodeOk := false }).1 ∧
    Ev.osRemove "/uploads/tube-import-111111.mp4"
      ∈ (importHandlerPost cfgW libW { importEnvW with dlVideoOk := false }).1 := by
  refine ⟨?_, ?_, ?_⟩
  · exact staged_sources_always_removed.1 cfgW libW 9 _ ⟨"/videos", "", false⟩ "movie.mp4"
      (by decide) rfl (by rfl) rfl rfl
  · exact staged_sources_always_removed.2.1 cfgW libW 9 _ ⟨"/videos", "", false⟩ "movie.mp4"
      (by decide) rfl (by rfl) rfl rfl rfl rfl
  · exact staged_sources_always_removed.2.2 cfgW libW _ "/videos" []
      (by decide) (by decide) rfl rfl rfl

/-- Reduction of `videoHandler` on the on-the-fly path: recognized quality,
derivative absent, pipes and process start succeed. -/
theorem videoHandler_otf_reduction {e : WatchEnv} {m : Video}
    (hv : lookupVideo e = some m)
    (hq : e.quality = "720p" ∨ e.quality = "480p" ∨ e.quality = "360p" ∨ e.quality = "240p")
    (hd : e.fileExists (goTrimSuffix m.path (goExt m.path) ++ "#" ++ e.quality ++ ".mp4") = false)
    (h1 : e.stderrPipeOk = true) (h2 : e.stdoutPipeOk = true) (h3 : e.startOk = true) :
    videoHandler e = streamLoop e.reads
      [Ev.storeMigrate ((e.pfxVar).getD "") (resolveId e), Ev.storeIncViews (resolveId e),
       Ev.setHeader "Content-Disposition" ("attachment; filename=\"" ++ m.title ++ ".mp4\""),
       Ev.setHeader "Content-Type" "video/mp4",
       Ev.copyStderrToStdout,
       Ev.startProc "ffmpeg"
         (otfArgs (goTrimSuffix m.path (goExt m.path) ++ "#" ++ e.quality ++ ".mp4")),
       Ev.spawnStderrReader, Ev.setHeader "Content-Type" "video/mp4"]
      [Ev.killProc] := by
  rcases hq with hq | hq | hq | hq <;>
    rw [hq] at hd ⊢ <;>
    simp [videoHandler, hv, hq, hd, h1, h2, h3]

/-- C8: a playback request naming a recognized quality variant whose
derivative file is absent takes the on-the-fly path: the response
Content-Type is video/mp4, the streaming encoder is started (no file is
served), the spawned process is killed when the handler exits, and a failed
response write (client disconnect) aborts the stream with the write error.
-/
theorem on_the_fly_streaming_and_kill {e : WatchEnv} {m : Video}
    (hv : lookupVideo e = some m)
    (hq : e.quality = "720p" ∨ e.quality = "480p" ∨ e.quality = "360p" ∨ e.quality = "240p")
    (hd : e.fileExists (goTrimSuffix m.path (goExt m.path) ++ "#" ++ e.quality ++ ".mp4") = false)
    (h1 : e.stderrPipeOk = true) (h2 : e.stdoutPipeOk = true) (h3 : e.startOk = true) :
    Ev.setHeader "Content-Type" "video/mp4" ∈ (videoHandler e).1 ∧
    Ev.startProc "ffmpeg"
        (otfArgs (goTrimSuffix m.path (goExt m.path) ++ "#" ++ e.quality ++ ".mp4"))
      ∈ (videoHandler e).1 ∧
    (∀ p, Ev.serveFile p ∉ (videoHandler e).1) ∧
    ((videoHandler e).1).getLast? = some Ev.killProc ∧
    (∀ pre s post, e.reads = pre ++ s :: post →
      (∀ t ∈ pre, 0 < t.n ∧ t.readErr = false ∧ t.writeOk = true) →
      0 < s.n → s.readErr = false → s.writeOk = false →
      (videoHandler e).2 = .httpErr 500 "error writing to response") := by
  have hred := videoHandler_otf_reduction hv hq hd h1 h2 h3
  rw [hred]
  refine ⟨streamLoop_tr_mem _ _ _ _ (by simp), streamLoop_tr_mem _ _ _ _ (by simp), ?_,
    streamLoop_last_kill _ _, ?_⟩
  · intro p hmem
    rcases streamLoop_events _ _ _ _ hmem with hx | hx | hx | hx
    · simp at hx
    · simp at hx
    · obtain ⟨n, hx⟩ := hx
      simp at hx
    · simp at hx
  · intro pre s post hreads hpre hn hre hw
    rw [hreads]
    exact streamLoop_write_fail pre s post _ _ hpre hn hre hw

theorem on_the_fly_streaming_and_kill_witness :
    Ev.setHeader "Content-Type" "video/mp4" ∈ (videoHandler watchEnvW).1 ∧
    Ev.startProc "ffmpeg" (otfArgs "/videos/abc#720p.mp4") ∈ (videoHandler watchEnvW).1 ∧
    ((videoHandler watchEnvW).1).getLast? = some Ev.killProc ∧
    (videoHandler watchEnvW).2 = .httpErr 500 "error writing to response" := by
  have h := @on_the_fly_streaming_and_kill watchEnvW ⟨"abc", "My Video", "/videos/abc.mp4"⟩
    (by decide) (.inl rfl) rfl rfl rfl rfl
  refine ⟨h.1, ?_, h.2.2.2.1, ?_⟩
  · have h2 := h.2.1
    have hp : goTrimSuffix ("/videos/abc.mp4" : String) (goExt "/videos/abc.mp4")
        ++ "#" ++ watchEnvW.quality ++ ".mp4" = "/videos/abc#720p.mp4" := by decide
    rw [hp] at h2
    exact h2
  · exact h.2.2.2.2 [⟨7, false, true⟩] ⟨5, false, false⟩ [] rfl (by decide) (by decide) rfl rfl

/-- C4 amended: on every successful run, the upload pipeline generates each
configured derivative by invoking the encoder on the originally staged
source with output in the scratch directory and then renames it into the
collection; the import pipeline instead invokes the encoder reading the
already-published master, writing `<stem>#<suffix>.mp4` directly beside it,
and never renames a derivative. -/
theorem derivative_generation_paths :
    (∀ (cfg : Config) (lib : Library) (fuel : Nat) (e : UploadEnv) (msg : String),
      (uploadHandlerPost cfg lib fuel e).2 = .success msg →
      ∃ nm,
        newVideoFileName e.fs fuel e.uploadFilename [e.targetField, cfg.server.uploadPath] e.uuid
          = some (.ok nm) ∧
        ∀ size sfx, (size, sfx) ∈ cfg.transcoder.sizes →
          createScaledVideo cfg.transcoder.timeout
              (cfg.server.uploadPath ++ "/" ++ ("tube-upload-" ++ e.stagedToken ++ goExt e.uploadFilename))
              (cfg.server.uploadPath ++ "/" ++ (pathWithoutExtension nm ++ "#" ++ sfx ++ ".mp4"))
              e.videoTitle e.videoDescription size
            ∈ (uploadHandlerPost cfg lib fuel e).1 ∧
          Ev.osRename (cfg.server.uploadPath ++ "/" ++ (pathWithoutExtension nm ++ "#" ++ sfx ++ ".mp4"))
              (pathWithoutExtension (goJoin e.targetField nm) ++ "#" ++ sfx ++ ".mp4")
            ∈ (uploadHandlerPost cfg lib fuel e).1) ∧
    (∀ (cfg : Config) (lib : Library) (e : ImportEnv) (msg : String),
      (importHandlerPost cfg lib e).2 = .success msg →
      ∃ collection restKeys p,
        sortStrings (lib.paths.map Prod.fst) = collection :: restKeys ∧
        lookupPath lib collection = some p ∧
        ∀ size sfx, (size, sfx) ∈ cfg.transcoder.sizes →
          Ev.runCmd cfg.transcoder.timeout "ffmpeg"
              ["-y", "-i", goJoin p.path (e.vfToken ++ ".mp4"), "-s", size, "-c:v", "libx264",
               "-c:a", "aac", "-crf", "18", "-strict", "-2", "-loglevel", "quiet",
               "-metadata", "title=" ++ e.info.title,
               "-metadata", "comment=" ++ e.info.description,
               pathWithoutExtension (goJoin p.path (e.vfToken ++ ".mp4")) ++ "#" ++ sfx ++ ".mp4"]
            ∈ (importHandlerPost cfg lib e).1 ∧
          (∀ s, Ev.osRename s
              (pathWithoutExtension (goJoin p.path (e.vfToken ++ ".mp4")) ++ "#" ++ sfx ++ ".mp4")
            ∉ (importHandlerPost cfg lib e).1)) := by
  constructor
  · intro cfg lib fuel e msg h
    obtain ⟨nm, hN, heq⟩ := uploadHandlerPost_success h
    refine ⟨nm, hN, ?_⟩
    intro size sfx hmem
    obtain ⟨hc, hr⟩ := @uploadScaleEvs_mem cfg e
      (cfg.server.uploadPath ++ "/" ++ ("tube-upload-" ++ e.stagedToken ++ goExt e.uploadFilename))
      (cfg.server.uploadPath ++ "/" ++ nm)
      (goJoin e.targetField nm)
      cfg.transcoder.sizes size sfx hmem
    have hscaled : goTrimSuffix (cfg.server.uploadPath ++ "/" ++ nm)
          (goExt (cfg.server.uploadPath ++ "/" ++ nm)) ++ "#" ++ sfx ++ ".mp4"
        = cfg.server.uploadPath ++ "/" ++ (pathWithoutExtension nm ++ "#" ++ sfx ++ ".mp4") := by
      rw [trimSuffix_ext, pwe_slash]
      apply strEq_of_data
      simp [strData_append]
    have htgt : goTrimSuffix (goJoin e.targetField nm) (goExt (goJoin e.targetField nm))
          ++ "#" ++ sfx ++ ".mp4"
        = pathWithoutExtension (goJoin e.targetField nm) ++ "#" ++ sfx ++ ".mp4" := by
      rw [trimSuffix_ext]
    constructor
    · rw [heq]
      simp only [uploadSuccessTrace]
      rw [← hscaled]
      simp only [List.mem_append]
      exact .inl (.inr hc)
    · rw [heq]
      simp only [uploadSuccessTrace]
      rw [← hscaled, ← htgt]
      simp only [List.mem_append]
      exact .inl (.inr hr)
  · intro cfg lib e msg h
    obtain ⟨collection, restKeys, p, hK, hLP, heq⟩ := importHandlerPost_success h
    refine ⟨collection, restKeys, p, hK, hLP, ?_⟩
    intro size sfx hmem
    have hic := @importScaleEvs_mem cfg e
      (goJoin p.path (e.vfToken ++ ".mp4")) cfg.transcoder.sizes size sfx hmem
    have hsf : goTrimSuffix (goJoin p.path (e.vfToken ++ ".mp4"))
          (goExt (goJoin p.path (e.vfToken ++ ".mp4"))) ++ "#" ++ sfx ++ ".mp4"
        = pathWithoutExtension (goJoin p.path (e.vfToken ++ ".mp4")) ++ "#" ++ sfx ++ ".mp4" := by
      rw [trimSuffix_ext]
    constructor
    · rw [heq]
      simp only [importSuccessTrace]
      rw [← hsf]
      simp only [List.mem_append]
      exact .inl (.inr hic)
    · intro s hmem2
      rw [heq] at hmem2
      simp only [importSuccessTrace, List.mem_append, List.mem_cons,
        List.mem_singleton] at hmem2
      rcases hmem2 with ((h8 | h8 | h8 | h8 | h8 | h8 | h8 | h8 | h0) | hscale) | hrem
      · exact absurd h8 (by simp)
      · exact absurd h8 (by simp)
      · exact absurd h8 (by simp)
      · exact absurd h8 (by simp)
      · exact absurd h8 (by simp)
      · exact absurd h8 (by simp)
      · simp only [Ev.osRename.injEq] at h8
        obtain ⟨hs, hd⟩ := h8
        rw [trimSuffix_ext] at hd
        exact (deriv_dst_ne (goJoin p.path (e.vfToken ++ ".mp4")) sfx).2 hd
      · simp only [Ev.osRename.injEq] at h8
        obtain ⟨hs, hd⟩ := h8
        exact (deriv_dst_ne (goJoin p.path (e.vfToken ++ ".mp4")) sfx).1 hd
      · exact absurd h0 (by simp)
      · obtain ⟨s2, x2, hm2, he2⟩ := importScaleEvs_shape _ _ hscale
        exact absurd he2 (by simp)
      · exact absurd hrem (by simp)

/-- C4 counterexample: a fully successful import with one configured
profile invokes the derivative encode with `-i` pointing at the published
master inside the collection (not the staged download), writes the output
directly into the collection, and never renames any derivative file. -/
theorem import_derivative_reads_published_master :
    (importHandlerPost cfgW1 libW importEnvW).2 = .success "Video successfully imported!" ∧
    Ev.runCmd 300 "ffmpeg"
        ["-y", "-i", "/videos/K7RsTq.mp4", "-s", "hd720", "-c:v", "libx264", "-c:a", "aac",
         "-crf", "18", "-strict", "-2", "-loglevel", "quiet", "-metadata", "title=Test",
         "-metadata", "comment=Demo", "/videos/K7RsTq#720p.mp4"]
      ∈ (importHandlerPost cfgW1 libW importEnvW).1 ∧
    underDir "/videos" "/videos/K7RsTq#720p.mp4" = true ∧
    underDir "/videos" "/videos/K7RsTq.mp4" = true ∧
    ("/videos/K7RsTq.mp4" : String) ≠ "/uploads/tube-import-111111.mp4" ∧
    (∀ s, Ev.osRename s "/videos/K7RsTq#720p.mp4" ∉ (importHandlerPost cfgW1 libW importEnvW).1) := by
  have htr : importHandlerPost cfgW1 libW importEnvW
      = ([Ev.tempFile "/uploads" "tube-import-111111.mp4",
          Ev.httpHead "https://cdn.example.com/v.mp4",
          Ev.download "https://cdn.example.com/v.mp4" "/uploads/tube-import-111111.mp4",
          Ev.tempFile "/uploads" "tube-transcode-222222.mp4",
          Ev.download "https://cdn.example.com/t.jpg" "/uploads/tube-transcode-222222.jpg",
          Ev.runCmd 300 "ffmpeg"
            ["-y", "-i", "/uploads/tube-import-111111.mp4", "-vcodec", "h264", "-acodec",
             "aac", "-strict", "-2", "-loglevel", "quiet", "-metadata", "title=Test",
             "-metadata", "comment=Demo", "/uploads/tube-transcode-222222.mp4"],
          Ev.osRename "/uploads/tube-transcode-222222.jpg" "/videos/K7RsTq.jpg",
          Ev.osRename "/uploads/tube-transcode-222222.mp4" "/videos/K7RsTq.mp4",
          Ev.runCmd 300 "ffmpeg"
            ["-y", "-i", "/videos/K7RsTq.mp4", "-s", "hd720", "-c:v", "libx264", "-c:a",
             "aac", "-crf", "18", "-strict", "-2", "-loglevel", "quiet", "-metadata",
             "title=Test", "-metadata", "comment=Demo", "/videos/K7RsTq#720p.mp4"],
          Ev.osRemove "/uploads/tube-import-111111.mp4"],
         .success "Video successfully imported!") := by decide
  refine ⟨by rw [htr], by rw [htr]; simp, by decide, by decide, by decide, ?_⟩
  intro s hmem
  rw [htr] at hmem
  simp at hmem

theorem derivative_generation_paths_witness :
    (∃ nm,
      newVideoFileName uploadEnvW.fs 9 uploadEnvW.uploadFilename
          [uploadEnvW.targetField, cfgW1.server.uploadPath] uploadEnvW.uuid
        = some (.ok nm) ∧
      ∀ size sfx, (size, sfx) ∈ cfgW1.transcoder.sizes →
        createScaledVideo cfgW1.transcoder.timeout
            (cfgW1.server.uploadPath ++ "/"
              ++ ("tube-upload-" ++ uploadEnvW.stagedToken ++ goExt uploadEnvW.uploadFilename))
            (cfgW1.server.uploadPath ++ "/" ++ (pathWithoutExtension nm ++ "#" ++ sfx ++ ".mp4"))
            uploadEnvW.videoTitle uploadEnvW.videoDescription size
          ∈ (uploadHandlerPost cfgW1 libW 9 uploadEnvW).1 ∧
        Ev.osRename
            (cfgW1.server.uploadPath ++ "/" ++ (pathWithoutExtension nm ++ "#" ++ sfx ++ ".mp4"))
            (pathWithoutExtension (goJoin uploadEnvW.targetField nm) ++ "#" ++ sfx ++ ".mp4")
          ∈ (uploadHandlerPost cfgW1 libW 9 uploadEnvW).1) ∧
    (∃ collection restKeys p,
      sortStrings (libW.paths.map Prod.fst) = collection :: restKeys ∧
      lookupPath libW collection = some p ∧
      ∀ size sfx, (size, sfx) ∈ cfgW1.transcoder.sizes →
        Ev.runCmd cfgW1.transcoder.timeout "ffmpeg"
            ["-y", "-i", goJoin p.path (importEnvW.vfToken ++ ".mp4"), "-s", size, "-c:v",
             "libx264", "-c:a", "aac", "-crf", "18", "-strict", "-2", "-loglevel", "quiet",
             "-metadata", "title=" ++ importEnvW.info.title,
             "-metadata", "comment=" ++ importEnvW.info.description,
             pathWithoutExtension (goJoin p.path (importEnvW.vfToken ++ ".mp4"))
               ++ "#" ++ sfx ++ ".mp4"]
          ∈ (importHandlerPost cfgW1 libW importEnvW).1 ∧
        (∀ s, Ev.osRename s
            (pathWithoutExtension (goJoin p.path (importEnvW.vfToken ++ ".mp4"))
              ++ "#" ++ sfx ++ ".mp4")
          ∉ (importHandlerPost cfgW1 libW importEnvW).1)) := by
  exact ⟨derivative_generation_paths.1 cfgW1 libW 9 uploadEnvW
      "Video successfully uploaded!" (by decide),
    derivative_generation_paths.2 cfgW1 libW importEnvW
      "Video successfully imported!" (by decide)⟩

/-- C1: on every successful ingestion (upload or import), publication is
exactly two adjacent renames — the thumbnail strictly before the transcoded
master — whose destinations share a stem; no event before them writes into
the collection, and any rename after them is a `#`-suffixed derivative
rename distinct from both published files (none, for the import pipeline).
-/
theorem publish_two_renames_thumbnail_first
    (cfg : Config) (lib : Library) (fuel : Nat) (eU : UploadEnv) (eI : ImportEnv)
    (hsepU : ∀ x, underDir eU.targetField (cfg.server.uploadPath ++ "/" ++ x) = false)
    (hsepI : ∀ key q, lookupPath lib key = some q →
      ∀ x, underDir q.path (cfg.server.uploadPath ++ "/" ++ x) = false) :
    (∀ msg, (uploadHandlerPost cfg lib fuel eU).2 = .success msg →
      ∃ nm pre post,
        (uploadHandlerPost cfg lib fuel eU).1
          = pre ++ [Ev.osRename
                      (pathWithoutExtension (cfg.server.uploadPath ++ "/" ++ nm) ++ ".jpg")
                      (pathWithoutExtension (goJoin eU.targetField nm) ++ ".jpg"),
                    Ev.osRename (cfg.server.uploadPath ++ "/" ++ nm) (goJoin eU.targetField nm)]
              ++ post ∧
        pathWithoutExtension (pathWithoutExtension (goJoin eU.targetField nm) ++ ".jpg")
          = pathWithoutExtension (goJoin eU.targetField nm) ∧
        (∀ ev ∈ pre, isRenameEv ev = false ∧ writesUnder eU.targetField ev = false) ∧
        (∀ s d, Ev.osRename s d ∈ post →
          d ≠ goJoin eU.targetField nm ∧
          d ≠ pathWithoutExtension (goJoin eU.targetField nm) ++ ".jpg" ∧
          ∃ size sfx, (size, sfx) ∈ cfg.transcoder.sizes ∧
            d = pathWithoutExtension (goJoin eU.targetField nm) ++ "#" ++ sfx ++ ".mp4")) ∧
    (∀ msg, (importHandlerPost cfg lib eI).2 = .success msg →
      ∃ collection restKeys p pre post,
        sortStrings (lib.paths.map Prod.fst) = collection :: restKeys ∧
        lookupPath lib collection = some p ∧
        (importHandlerPost cfg lib eI).1
          = pre ++ [Ev.osRename
                      (pathWithoutExtension (cfg.server.uploadPath ++ "/"
                          ++ ("tube-transcode-" ++ eI.tfToken ++ ".mp4")) ++ ".jpg")
                      (pathWithoutExtension (goJoin p.path (eI.vfToken ++ ".mp4")) ++ ".jpg"),
                    Ev.osRename (cfg.server.uploadPath ++ "/"
                        ++ ("tube-transcode-" ++ eI.tfToken ++ ".mp4"))
                      (goJoin p.path (eI.vfToken ++ ".mp4"))] ++ post ∧
        pathWithoutExtension (pathWithoutExtension (goJoin p.path (eI.vfToken ++ ".mp4")) ++ ".jpg")
          = pathWithoutExtension (goJoin p.path (eI.vfToken ++ ".mp4")) ∧
        (∀ ev ∈ pre, isRenameEv ev = false ∧ writesUnder p.path ev = false) ∧
        (∀ ev ∈ post, isRenameEv ev = false)) := by
  constructor
  · intro msg h
    obtain ⟨nm, hN, heq⟩ := uploadHandlerPost_success h
    refine ⟨nm,
      [Ev.tempFile cfg.server.uploadPath
         ("tube-upload-" ++ eU.stagedToken ++ goExt eU.uploadFilename),
       Ev.osCreate (cfg.server.uploadPath ++ "/" ++ nm),
       createVideo cfg.transcoder.timeout
         (cfg.server.uploadPath ++ "/" ++ ("tube-upload-" ++ eU.stagedToken ++ goExt eU.uploadFilename))
         (cfg.server.uploadPath ++ "/" ++ nm) eU.videoTitle eU.videoDescription,
       createThumbnail cfg.thumbnailer.timeout cfg.thumbnailer.positionFromStart
         (cfg.server.uploadPath ++ "/" ++ ("tube-upload-" ++ eU.stagedToken ++ goExt eU.uploadFilename))
         (pathWithoutExtension (cfg.server.uploadPath ++ "/" ++ nm) ++ ".jpg")],
      uploadScaleEvs cfg eU
          (cfg.server.uploadPath ++ "/" ++ ("tube-upload-" ++ eU.stagedToken ++ goExt eU.uploadFilename))
          (cfg.server.uploadPath ++ "/" ++ nm) (goJoin eU.targetField nm) cfg.transcoder.sizes
        ++ [Ev.osRemove (cfg.server.uploadPath ++ "/" ++ nm),
            Ev.osRemove (cfg.server.uploadPath ++ "/"
              ++ ("tube-upload-" ++ eU.stagedToken ++ goExt eU.uploadFilename))],
      ?_, pwe_concat_jpg _, ?_, ?_⟩
    · rw [heq]
      simp [uploadSuccessTrace]
    · intro ev hev
      simp only [List.mem_cons, List.not_mem_nil, or_false] at hev
      rcases hev with rfl | rfl | rfl | rfl
      · refine ⟨rfl, ?_⟩
        simp only [writesUnder, evWriteDst]
        exact hsepU _
      · refine ⟨rfl, ?_⟩
        simp only [writesUnder, evWriteDst]
        exact hsepU _
      · refine ⟨rfl, ?_⟩
        simp only [writesUnder, evWriteDst_createVideo]
        exact hsepU _
      · refine ⟨rfl, ?_⟩
        simp only [writesUnder, evWriteDst_createThumbnail]
        rw [pwe_slash, strAppend_assoc]
        exact hsepU _
    · intro s d hmem
      simp only [List.mem_append, List.mem_cons, List.not_mem_nil, or_false] at hmem
      rcases hmem with hscale | hr1 | hr2
      · rcases uploadScaleEvs_shape _ _ hscale with ⟨size, sfx, hm, he⟩ | ⟨size, sfx, hm, he⟩
        · exact absurd he (by simp [createScaledVideo])
        · simp only [Ev.osRename.injEq] at he
          obtain ⟨hs2, hd2⟩ := he
          rw [trimSuffix_ext] at hd2
          subst hd2
          exact ⟨(deriv_dst_ne _ sfx).1, (deriv_dst_ne _ sfx).2, size, sfx, hm, rfl⟩
      · exact absurd hr1 (by simp)
      · exact absurd hr2 (by simp)
  · intro msg h
    obtain ⟨collection, restKeys, p, hK, hLP, heq⟩ := importHandlerPost_success h
    refine ⟨collection, restKeys, p,
      [Ev.tempFile cfg.server.uploadPath ("tube-import-" ++ eI.ufToken ++ ".mp4"),
       Ev.httpHead eI.info.videoURL,
       Ev.download eI.info.videoURL
         (cfg.server.uploadPath ++ "/" ++ ("tube-import-" ++ eI.ufToken ++ ".mp4")),
       Ev.tempFile cfg.server.uploadPath ("tube-transcode-" ++ eI.tfToken ++ ".mp4"),
       Ev.download eI.info.thumbnailURL
         (pathWithoutExtension (cfg.server.uploadPath ++ "/"
             ++ ("tube-transcode-" ++ eI.tfToken ++ ".mp4")) ++ ".jpg"),
       Ev.runCmd cfg.transcoder.timeout "ffmpeg"
         ["-y", "-i", cfg.server.uploadPath ++ "/" ++ ("tube-import-" ++ eI.ufToken ++ ".mp4"),
          "-vcodec", "h264", "-acodec", "aac", "-strict", "-2", "-loglevel", "quiet",
          "-metadata", "title=" ++ eI.info.title, "-metadata", "comment=" ++ eI.info.description,
          cfg.server.uploadPath ++ "/" ++ ("tube-transcode-" ++ eI.tfToken ++ ".mp4")]],
      importScaleEvs cfg eI (goJoin p.path (eI.vfToken ++ ".mp4")) cfg.transcoder.sizes
        ++ [Ev.osRemove (cfg.server.uploadPath ++ "/" ++ ("tube-import-" ++ eI.ufToken ++ ".mp4"))],
      hK, hLP, ?_, pwe_concat_jpg _, ?_, ?_⟩
    · rw [heq]
      simp only [importSuccessTrace, trimSuffix_ext]
      simp
    · intro ev hev
      simp only [List.mem_cons, List.not_mem_nil, or_false] at hev
      rcases hev with rfl | rfl | rfl | rfl | rfl | rfl
      · refine ⟨rfl, ?_⟩
        simp only [writesUnder, evWriteDst]
        exact hsepI collection p hLP _
      · exact ⟨rfl, rfl⟩
      · refine ⟨rfl, ?_⟩
        simp only [writesUnder, evWriteDst]
        exact hsepI collection p hLP _
      · refine ⟨rfl, ?_⟩
        simp only [writesUnder, evWriteDst]
        exact hsepI collection p hLP _
      · refine ⟨rfl, ?_⟩
        simp only [writesUnder, evWriteDst]
        rw [pwe_slash, strAppend_assoc]
        exact hsepI collection p hLP _
      · refine ⟨rfl, ?_⟩
        simp only [writesUnder, evWriteDst]
        have hlast : (["-y", "-i",
            cfg.server.uploadPath ++ "/" ++ ("tube-import-" ++ eI.ufToken ++ ".mp4"),
            "-vcodec", "h264", "-acodec", "aac", "-strict", "-2", "-loglevel", "quiet",
            "-metadata", "title=" ++ eI.info.title,
            "-metadata", "comment=" ++ eI.info.description,
            cfg.server.uploadPath ++ "/" ++ ("tube-transcode-" ++ eI.tfToken ++ ".mp4")]).getLastD ""
            = cfg.server.uploadPath ++ "/" ++ ("tube-transcode-" ++ eI.tfToken ++ ".mp4") := rfl
        rw [hlast]
        exact hsepI collection p hLP _
    · intro ev hev
      simp only [List.mem_append, List.mem_cons, List.not_mem_nil, or_false] at hev
      rcases hev with hscale | rfl
      · obtain ⟨size, sfx, hm, he⟩ := importScaleEvs_shape _ _ hscale
        rw [he]
        rfl
      · rfl

theorem publish_two_renames_thumbnail_first_witness :
    (∃ nm pre post,
      (uploadHandlerPost cfgW1 libW 9 uploadEnvW).1
        = pre ++ [Ev.osRename
                    (pathWithoutExtension (cfgW1.server.uploadPath ++ "/" ++ nm) ++ ".jpg")
                    (pathWithoutExtension (goJoin uploadEnvW.targetField nm) ++ ".jpg"),
                  Ev.osRename (cfgW1.server.uploadPath ++ "/" ++ nm)
                    (goJoin uploadEnvW.targetField nm)] ++ post ∧
      pathWithoutExtension (pathWithoutExtension (goJoin uploadEnvW.targetField nm) ++ ".jpg")
        = pathWithoutExtension (goJoin uploadEnvW.targetField nm) ∧
      (∀ ev ∈ pre, isRenameEv ev = false ∧ writesUnder uploadEnvW.targetField ev = false) ∧
      (∀ s d, Ev.osRename s d ∈ post →
        d ≠ goJoin uploadEnvW.targetField nm ∧
        d ≠ pathWithoutExtension (goJoin uploadEnvW.targetField nm) ++ ".jpg" ∧
        ∃ size sfx, (size, sfx) ∈ cfgW1.transcoder.sizes ∧
          d = pathWithoutExtension (goJoin uploadEnvW.targetField nm) ++ "#" ++ sfx ++ ".mp4")) ∧
    (∃ collection restKeys p pre post,
      sortStrings (libW.paths.map Prod.fst) = collection :: restKeys ∧
      lookupPath libW collection = some p ∧
      (importHandlerPost cfgW1 libW importEnvW).1
        = pre ++ [Ev.osRename
                    (pathWithoutExtension (cfgW1.server.uploadPath ++ "/"
                        ++ ("tube-transcode-" ++ importEnvW.tfToken ++ ".mp4")) ++ ".jpg")
                    (pathWithoutExtension (goJoin p.path (importEnvW.vfToken ++ ".mp4")) ++ ".jpg"),
                  Ev.osRename (cfgW1.server.uploadPath ++ "/"
                      ++ ("tube-transcode-" ++ importEnvW.tfToken ++ ".mp4"))
                    (goJoin p.path (importEnvW.vfToken ++ ".mp4"))] ++ post ∧
      pathWithoutExtension
          (pathWithoutExtension (goJoin p.path (importEnvW.vfToken ++ ".mp4")) ++ ".jpg")
        = pathWithoutExtension (goJoin p.path (importEnvW.vfToken ++ ".mp4")) ∧
      (∀ ev ∈ pre, isRenameEv ev = false ∧ writesUnder p.path ev = false) ∧
      (∀ ev ∈ post, isRenameEv ev = false)) := by
  have h := publish_two_renames_thumbnail_first cfgW1 libW 9 uploadEnvW importEnvW
    sep_videos_uploads sep_videos_uploads_keyed
  exact ⟨h.1 "Video successfully uploaded!" (by decide),
    h.2 "Video successfully imported!" (by decide)⟩

/-- C5: when generation of a quality derivative fails after the master has
been published (every step through the master rename succeeds; the failing
step may belong to any configured profile and, in the upload pipeline, be
either the derivative encode or the rename of the scaled file), the failure
is reported to the caller as an HTTP 500, the two publish renames are in the
trace, and no event of the whole trace removes a collection file or renames
a file out of the collection -- the publish is never unwound, at most some
derivatives end up missing. -/
theorem derivative_failure_preserves_published_master
    (cfg : Config) (lib : Library) (fuel : Nat) (eU : UploadEnv) (eI : ImportEnv)
    (p0 pI : LibPath) (nm collection : String) (restKeys : List String)
    (hL : lookupPath lib eU.targetField = some p0)
    (hF : eU.formFileOk = true)
    (hN : newVideoFileName eU.fs fuel eU.uploadFilename [eU.targetField, cfg.server.uploadPath]
        eU.uuid = some (.ok nm))
    (hSC : eU.stagedCreateOk = true) (hCP : eU.copyOk = true)
    (hSJ : eU.fs.sjFail cfg.server.uploadPath nm = false)
    (hCR : eU.createOk = true) (hT : eU.transcodeOk = true) (hTH : eU.thumbOk = true)
    (hRT : eU.renameThumbOk = true) (hRV : eU.renameVideoOk = true)
    (hU : (eI.url == "") = false)
    (hK : sortStrings (lib.paths.map Prod.fst) = collection :: restKeys)
    (hI : eI.importerOk = true) (hV : eI.videoInfoOk = true) (hUF : eI.ufCreateOk = true)
    (hH : eI.headOk = true) (hCL : (eI.contentLength == -1) = false)
    (hM : ¬ cfg.server.maxUploadSize < eI.contentLength)
    (hDV : eI.dlVideoOk = true) (hTF : eI.tfCreateOk = true)
    (hLPI : lookupPath lib collection = some pI)
    (hDT : eI.dlThumbOk = true) (hTI : eI.transcodeOk = true)
    (hRTI : eI.renameThumbOk = true) (hRVI : eI.renameVideoOk = true)
    (hsepU : ∀ x, underDir eU.targetField (cfg.server.uploadPath ++ "/" ++ x) = false)
    (hsepI : ∀ x, underDir pI.path (cfg.server.uploadPath ++ "/" ++ x) = false) :
    (((∃ i, i < cfg.transcoder.sizes.length ∧
          (eU.scaleOk i = false ∨ eU.scaleRenameOk i = false)) →
        (uploadHandlerPost cfg lib fuel eU).2 = .httpErr 500 "error transcoding video" ∨
        (uploadHandlerPost cfg lib fuel eU).2 = .httpErr 500 "error moving scaled video") ∧
      Ev.osRename (pathWithoutExtension (cfg.server.uploadPath ++ "/" ++ nm) ++ ".jpg")
          (pathWithoutExtension (goJoin eU.targetField nm) ++ ".jpg")
        ∈ (uploadHandlerPost cfg lib fuel eU).1 ∧
      Ev.osRename (cfg.server.uploadPath ++ "/" ++ nm) (goJoin eU.targetField nm)
        ∈ (uploadHandlerPost cfg lib fuel eU).1 ∧
      (∀ q, Ev.osRemove q ∈ (uploadHandlerPost cfg lib fuel eU).1 →
        underDir eU.targetField q = false) ∧
      (∀ s d, Ev.osRename s d ∈ (uploadHandlerPost cfg lib fuel eU).1 →
        underDir eU.targetField s = false)) ∧
    (((∃ i, i < cfg.transcoder.sizes.length ∧ eI.scaleOk i = false) →
        (importHandlerPost cfg lib eI).2 = .httpErr 500 "error transcoding video") ∧
      Ev.osRename
          (pathWithoutExtension (cfg.server.uploadPath ++ "/"
            ++ ("tube-transcode-" ++ eI.tfToken ++ ".mp4")) ++ ".jpg")
          (pathWithoutExtension (goJoin pI.path (eI.vfToken ++ ".mp4")) ++ ".jpg")
        ∈ (importHandlerPost cfg lib eI).1 ∧
      Ev.osRename (cfg.server.uploadPath ++ "/" ++ ("tube-transcode-" ++ eI.tfToken ++ ".mp4"))
          (goJoin pI.path (eI.vfToken ++ ".mp4"))
        ∈ (importHandlerPost cfg lib eI).1 ∧
      (∀ q, Ev.osRemove q ∈ (importHandlerPost cfg lib eI).1 →
        underDir pI.path q = false) ∧
      (∀ s d, Ev.osRename s d ∈ (importHandlerPost cfg lib eI).1 →
        underDir pI.path s = false)) := by
  have hpubU := uploadHandlerPost_published hL hF hN hSC hCP hSJ hCR hT hTH hRT hRV
  have hpubI := importHandlerPost_published hU hK hI hV hUF hH hCL hM hDV hTF hLPI hDT hTI
    hRTI hRVI
  simp only [trimSuffix_ext] at hpubI
  constructor
  · refine ⟨?_, ?_, ?_, ?_, ?_⟩
    · rintro ⟨i, hi, hf⟩
      rw [hpubU]
      exact uploadScaleLoop_fail _ _ _ _ ⟨i, hi, by simpa using hf⟩
    · rw [hpubU]
      exact uploadScaleLoop_tr_mem _ _ _ _ _ (by simp)
    · rw [hpubU]
      exact uploadScaleLoop_tr_mem _ _ _ _ _ (by simp)
    · intro q hq
      rw [hpubU] at hq
      rcases uploadScaleLoop_mem_cases _ _ _ _ _ hq with
        hq | hq | ⟨_, _, _, he⟩ | ⟨_, _, _, he⟩
      · simp [createVideo, createThumbnail] at hq
      · simp only [List.mem_cons, List.not_mem_nil, or_false, Ev.osRemove.injEq] at hq
        rcases hq with rfl | rfl
        · exact hsepU _
        · exact hsepU _
      · simp [createScaledVideo] at he
      · simp at he
    · intro s d hq
      rw [hpubU] at hq
      rcases uploadScaleLoop_mem_cases _ _ _ _ _ hq with
        hq | hq | ⟨_, _, _, he⟩ | ⟨_, x2, _, he⟩
      · simp only [List.mem_cons, List.not_mem_nil, or_false, createVideo, createThumbnail,
          reduceCtorEq, false_or, or_false, Ev.osRename.injEq] at hq
        rcases hq with ⟨rfl, rfl⟩ | ⟨rfl, rfl⟩
        · rw [pwe_slash, strAppend_assoc]
          exact hsepU _
        · exact hsepU _
      · simp at hq
      · simp [createScaledVideo] at he
      · injection he with h1 h2
        subst h1
        rw [trimSuffix_ext, pwe_slash]
        have hx : cfg.server.uploadPath ++ "/" ++ pathWithoutExtension nm ++ "#" ++ x2 ++ ".mp4"
            = cfg.server.uploadPath ++ "/" ++ (pathWithoutExtension nm ++ "#" ++ x2 ++ ".mp4") := by
          apply strEq_of_data
          simp [strData_append]
        rw [hx]
        exact hsepU _
  · refine ⟨?_, ?_, ?_, ?_, ?_⟩
    · rintro ⟨i, hi, hf⟩
      rw [hpubI]
      exact importScaleLoop_fail _ _ _ _ ⟨i, hi, by simpa using hf⟩
    · rw [hpubI]
      exact importScaleLoop_tr_mem _ _ _ _ _ (by simp)
    · rw [hpubI]
      exact importScaleLoop_tr_mem _ _ _ _ _ (by simp)
    · intro q hq
      rw [hpubI] at hq
      rcases importScaleLoop_mem_cases _ _ _ _ _ hq with hq | hq | ⟨_, _, _, he⟩
      · simp at hq
      · simp only [List.mem_cons, List.not_mem_nil, or_false, Ev.osRemove.injEq] at hq
        rw [hq]
        exact hsepI _
      · simp at he
    · intro s d hq
      rw [hpubI] at hq
      rcases importScaleLoop_mem_cases _ _ _ _ _ hq with hq | hq | ⟨_, _, _, he⟩
      · simp only [List.mem_cons, List.not_mem_nil, or_false, reduceCtorEq, false_or,
          or_false, Ev.osRename.injEq] at hq
        rcases hq with ⟨rfl, rfl⟩ | ⟨rfl, rfl⟩
        · rw [pwe_slash, strAppend_assoc]
          exact hsepI _
        · exact hsepI _
      · simp at hq
      · simp at he

theorem derivative_failure_preserves_published_master_witness :
    (∃ i, i < cfgW1.transcoder.sizes.length ∧
      (uploadEnvWR.scaleOk i = false ∨ uploadEnvWR.scaleRenameOk i = false)) ∧
    (∃ i, i < cfgW1.transcoder.sizes.length ∧ importEnvWF.scaleOk i = false) ∧
    ((((∃ i, i < cfgW1.transcoder.sizes.length ∧
          (uploadEnvWR.scaleOk i = false ∨ uploadEnvWR.scaleRenameOk i = false)) →
        (uploadHandlerPost cfgW1 libW 9 uploadEnvWR).2 = .httpErr 500 "error transcoding video" ∨
        (uploadHandlerPost cfgW1 libW 9 uploadEnvWR).2
          = .httpErr 500 "error moving scaled video") ∧
      Ev.osRename (pathWithoutExtension (cfgW1.server.uploadPath ++ "/" ++ "movie.mp4") ++ ".jpg")
          (pathWithoutExtension (goJoin uploadEnvWR.targetField "movie.mp4") ++ ".jpg")
        ∈ (uploadHandlerPost cfgW1 libW 9 uploadEnvWR).1 ∧
      Ev.osRename (cfgW1.server.uploadPath ++ "/" ++ "movie.mp4")
          (goJoin uploadEnvWR.targetField "movie.mp4")
        ∈ (uploadHandlerPost cfgW1 libW 9 uploadEnvWR).1 ∧
      (∀ q, Ev.osRemove q ∈ (uploadHandlerPost cfgW1 libW 9 uploadEnvWR).1 →
        underDir uploadEnvWR.targetField q = false) ∧
      (∀ s d, Ev.osRename s d ∈ (uploadHandlerPost cfgW1 libW 9 uploadEnvWR).1 →
        underDir uploadEnvWR.targetField s = false)) ∧
    (((∃ i, i < cfgW1.transcoder.sizes.length ∧ importEnvWF.scaleOk i = false) →
        (importHandlerPost cfgW1 libW importEnvWF).2 = .httpErr 500 "error transcoding video") ∧
      Ev.osRename
          (pathWithoutExtension (cfgW1.server.uploadPath ++ "/"
            ++ ("tube-transcode-" ++ importEnvWF.tfToken ++ ".mp4")) ++ ".jpg")
          (pathWithoutExtension (goJoin ("/videos" : String) (importEnvWF.vfToken ++ ".mp4"))
            ++ ".jpg")
        ∈ (importHandlerPost cfgW1 libW importEnvWF).1 ∧
      Ev.osRename (cfgW1.server.uploadPath ++ "/"
            ++ ("tube-transcode-" ++ importEnvWF.tfToken ++ ".mp4"))
          (goJoin ("/videos" : String) (importEnvWF.vfToken ++ ".mp4"))
        ∈ (importHandlerPost cfgW1 libW importEnvWF).1 ∧
      (∀ q, Ev.osRemove q ∈ (importHandlerPost cfgW1 libW importEnvWF).1 →
        underDir ("/videos" : String) q = false) ∧
      (∀ s d, Ev.osRename s d ∈ (importHandlerPost cfgW1 libW importEnvWF).1 →
        underDir ("/videos" : String) s = false))) := by
  refine ⟨⟨0, by decide, Or.inr rfl⟩, ⟨0, by decide, rfl⟩, ?_⟩
  exact derivative_failure_preserves_published_master cfgW1 libW 9 uploadEnvWR importEnvWF
    ⟨"/videos", "", false⟩ ⟨"/videos", "", false⟩ "movie.mp4" "/videos" []
    (by decide) rfl (by rfl) rfl rfl rfl rfl rfl rfl rfl rfl
    (by decide) (by decide) rfl rfl rfl rfl (by decide) (by decide) rfl rfl
    (by decide) rfl rfl rfl rfl
    sep_videos_uploads sep_videos_uploads

end Tube
